import Mathlib

/-!
# OEF agent runtime: message decoder, broker scheduler and local proxy

A shallow embedding of `lib/include/agent.hpp`.

* The protobuf records of `agent.pb.h` are inductive types whose constructors are the
  cases of the generated `oneof` accessors (`kCfp`, `PAYLOAD_NOT_SET`, ...).
* The wire objects `pb::Query_Instance` and `pb::Query_Model` are type parameters
  `QI` and `QM`; the byte buffer `Buffer` is a type parameter as well.
* Everything `agent.hpp` uses from headers that are not part of the development
  (`serialize`, `deserialize`, the default-constructed variants) is collected in
  `Externals` and passed explicitly.
* An agent callback is not run: every invocation is recorded as an `Event`, the
  pair of the receiving agent object and the callback with its arguments.
* 32-bit unsigned identifiers are natural numbers; they are only copied, never
  computed with.
-/

namespace fetch.oef

/-! ## Wire records (`agent.pb.h`) -/

namespace pb

/-- The `payload` oneof of `Fipa_Cfp`, by `payload_case()`. -/
inductive Fipa_Cfp (QM : Type) where
  | kQuery (query : QM)
  | kContent (content : String)
  | kNothing
  | PAYLOAD_NOT_SET
  deriving DecidableEq, Repr

/-- The `payload` oneof of `Fipa_Propose`; `kProposals` carries `proposals().objects()`. -/
inductive Fipa_Propose (QI : Type) where
  | kProposals (objects : List QI)
  | kContent (content : String)
  | PAYLOAD_NOT_SET
  deriving DecidableEq, Repr

/-- The `msg` oneof of `Fipa_Message`, by `msg_case()`. -/
inductive Fipa_Message.MsgCase (QI QM : Type) where
  | kCfp (cfp : Fipa_Cfp QM)
  | kPropose (propose : Fipa_Propose QI)
  | kAccept
  | kDecline
  | MSG_NOT_SET
  deriving DecidableEq, Repr

/-- Record `Fipa_Message`: a `target` and the `msg` oneof. -/
structure Fipa_Message (QI QM : Type) where
  target : Nat
  msg : Fipa_Message.MsgCase QI QM
  deriving DecidableEq, Repr

/-- The `payload` oneof of `Server_AgentMessage_Content`. -/
inductive Server_AgentMessage_Content.PayloadCase (QI QM : Type) where
  | kContent (content : String)
  | kFipa (fipa : Fipa_Message QI QM)
  | PAYLOAD_NOT_SET
  deriving DecidableEq, Repr

/-- Record `Server_AgentMessage_Content`. -/
structure Server_AgentMessage_Content (QI QM : Type) where
  dialogue_id : Nat
  origin : String
  payload : Server_AgentMessage_Content.PayloadCase QI QM
  deriving DecidableEq, Repr

/-- Enumeration `Server_AgentMessage_OEFError_Operation`, by its numeric value. -/
abbrev Server_AgentMessage_OEFError_Operation := Nat

/-- The `payload` oneof of `Server_AgentMessage`, by `payload_case()`. -/
inductive Server_AgentMessage.PayloadCase (QI QM : Type) where
  | kOefError (operation : Server_AgentMessage_OEFError_Operation)
  | kDialogueError (dialogue_id : Nat) (origin : String)
  | kAgents (agents : List String)
  | kContent (content : Server_AgentMessage_Content QI QM)
  | PAYLOAD_NOT_SET
  deriving DecidableEq, Repr

/-- Record `Server_AgentMessage`: the envelope the broker sends to an agent. -/
structure Server_AgentMessage (QI QM : Type) where
  answer_id : Nat
  payload : Server_AgentMessage.PayloadCase QI QM
  deriving DecidableEq, Repr

end pb

/-! ## Client-side value types (`oefcoreproxy.hpp`) -/

/-- Class `QueryModel`, built from a wire `Query_Model` and holding it. -/
structure QueryModel (QM : Type) where
  handle : QM
  deriving DecidableEq, Repr

/-- Class `Instance`, built from a wire `Query_Instance` and holding it. -/
structure Instance (QI : Type) where
  handle : QI
  deriving DecidableEq, Repr

/-- Variant `CFPType`: no constraint, raw bytes or a query. -/
inductive CFPType (QM : Type) where
  | None
  | Bytes (content : String)
  | Query (query : QueryModel QM)
  deriving DecidableEq, Repr

/-- Variant `ProposeType`: raw bytes or a list of instances. -/
inductive ProposeType (QI : Type) where
  | Bytes (content : String)
  | Instances (instances : List (Instance QI))
  deriving DecidableEq, Repr

/-- One invocation of a virtual function of `AgentInterface`, with its arguments. -/
inductive Callback (QI QM : Type) where
  | onOEFError (answerId : Nat) (operation : pb.Server_AgentMessage_OEFError_Operation)
  | onDialogueError (answerId dialogueId : Nat) (origin : String)
  | onSearchResult (searchId : Nat) (results : List String)
  | onMessage (msgId dialogueId : Nat) (origin : String) (content : String)
  | onCFP (msgId dialogueId : Nat) (origin : String) (target : Nat) (constraints : CFPType QM)
  | onPropose (msgId dialogueId : Nat) (origin : String) (target : Nat)
      (proposals : ProposeType QI)
  | onAccept (msgId dialogueId : Nat) (origin : String) (target : Nat)
  | onDecline (msgId dialogueId : Nat) (origin : String) (target : Nat)
  deriving DecidableEq, Repr

/-- An agent object (`AgentInterface &`, `AgentInterface *`), named by its address. -/
abbrev AgentPtr := Nat

/-- A callback invoked on an agent object. -/
abbrev Event (QI QM : Type) := AgentPtr × Callback QI QM

/-- What `agent.hpp` takes from headers outside the development: the codec of
`common.hpp` (`deserialize` yields `none` where the C++ function throws), the values
of a default-constructed `CFPType` and `ProposeType`, and the empty `Buffer{}`. -/
structure Externals (QI QM Buffer : Type) where
  serialize : pb.Server_AgentMessage QI QM → Buffer
  deserialize : Buffer → Option (pb.Server_AgentMessage QI QM)
  defaultCFPType : CFPType QM
  defaultProposeType : ProposeType QI
  emptyBuffer : Buffer

/-- Round trip of the codec: a serialised envelope deserialises to itself. -/
def Externals.RoundTrip {QI QM Buffer : Type} (x : Externals QI QM Buffer) : Prop :=
  ∀ m : pb.Server_AgentMessage QI QM, x.deserialize (x.serialize m) = some m

/-! ## `MessageDecoder` -/

namespace MessageDecoder

variable {QI QM Buffer : Type}

/-- Function `MessageDecoder::dispatch`: the callback for a FIPA message. A `Cfp` or
`Propose` whose payload is not set leaves the local variant default-constructed and
still invokes the callback; `MSG_NOT_SET` only logs. -/
def dispatch (x : Externals QI QM Buffer) (agent : AgentPtr) (fipa : pb.Fipa_Message QI QM)
    (content : pb.Server_AgentMessage_Content QI QM) (msg : pb.Server_AgentMessage QI QM) :
    List (Event QI QM) :=
  match fipa.msg with
  | .kCfp cfp =>
    let constraints : CFPType QM :=
      match cfp with
      | .kQuery query => CFPType.Query (QueryModel.mk query)
      | .kContent c => CFPType.Bytes c
      | .kNothing => CFPType.None
      | .PAYLOAD_NOT_SET => x.defaultCFPType
    [(agent, Callback.onCFP msg.answer_id content.dialogue_id content.origin fipa.target
        constraints)]
  | .kPropose propose =>
    let proposals : ProposeType QI :=
      match propose with
      | .kProposals objects =>
        let instances : List (Instance QI) :=
          objects.foldl (fun acc object => acc ++ [Instance.mk object]) []
        ProposeType.Instances instances
      | .kContent c => ProposeType.Bytes c
      | .PAYLOAD_NOT_SET => x.defaultProposeType
    [(agent, Callback.onPropose msg.answer_id content.dialogue_id content.origin fipa.target
        proposals)]
  | .kAccept =>
    [(agent, Callback.onAccept msg.answer_id content.dialogue_id content.origin fipa.target)]
  | .kDecline =>
    [(agent, Callback.onDecline msg.answer_id content.dialogue_id content.origin fipa.target)]
  | .MSG_NOT_SET => []

/-- Function `MessageDecoder::decode`: deserialise the buffer and invoke the callback
chosen by the payload; a buffer that does not deserialise is logged and dropped. -/
def decode (x : Externals QI QM Buffer) (_agentPublicKey : String) (buffer : Buffer)
    (agent : AgentPtr) : List (Event QI QM) :=
  match x.deserialize buffer with
  | none => []
  | some msg =>
    match msg.payload with
    | .kOefError operation => [(agent, Callback.onOEFError msg.answer_id operation)]
    | .kDialogueError dialogue_id origin =>
      [(agent, Callback.onDialogueError msg.answer_id dialogue_id origin)]
    | .kAgents agents =>
      let searchResults : List String := agents.foldl (fun acc s => acc ++ [s]) []
      [(agent, Callback.onSearchResult msg.answer_id searchResults)]
    | .kContent content =>
      match content.payload with
      | .kContent c =>
        [(agent, Callback.onMessage msg.answer_id content.dialogue_id content.origin c)]
      | .kFipa fipa => dispatch x agent fipa content msg
      | .PAYLOAD_NOT_SET => []
    | .PAYLOAD_NOT_SET => []

end MessageDecoder

/-! ## `SchedulerPB` -/

/-- Struct `SchedulerPB::LocalAgentSession`: the bound agent (a null pointer is
`none`) and the optional description. -/
structure LocalAgentSession (QI : Type) where
  _agent : Option AgentPtr
  _description : Option (Instance QI)
  deriving DecidableEq, Repr

/-- Modelled from the spec: class `ServiceDirectory` of `servicedirectory.hpp`, a
mapping from a service description to the agent keys that advertise it. -/
structure ServiceDirectory (QI : Type) where
  entries : List (Instance QI × List String)

/-- Class `SchedulerPB`: the session table `_agents` (a map with unique keys), the
dispatch queue `_queue` (pushed at the back, popped at the front), the flag
`_stopping` and the service directory `_sd`. -/
structure SchedulerPB (QI Buffer : Type) where
  _agents : AList (fun _ : String => LocalAgentSession QI)
  _queue : List (String × Buffer)
  _stopping : Bool
  _sd : ServiceDirectory QI

namespace SchedulerPB

variable {QI QM Buffer : Type}

/-- Member `nbAgents`: `_agents.size()`. -/
def nbAgents (s : SchedulerPB QI Buffer) : Nat :=
  s._agents.entries.length

/-- Member `connect`: refuse a key that has a session, else insert a
value-initialised session. -/
def connect (s : SchedulerPB QI Buffer) (agentPublicKey : String) :
    Bool × SchedulerPB QI Buffer :=
  match s._agents.lookup agentPublicKey with
  | some _ => (false, s)
  | none =>
    (true, { s with _agents := s._agents.insert agentPublicKey
                      { _agent := none, _description := none } })

/-- Member `disconnect`: erase the session of the key. -/
def disconnect (s : SchedulerPB QI Buffer) (agentPublicKey : String) : SchedulerPB QI Buffer :=
  { s with _agents := s._agents.erase agentPublicKey }

/-- Member `loop`: `_agents[agentPublicKey]._agent = &agent`; the subscript creates a
value-initialised session when the key has none. -/
def loop (s : SchedulerPB QI Buffer) (agentPublicKey : String) (agent : AgentPtr) :
    SchedulerPB QI Buffer :=
  match s._agents.lookup agentPublicKey with
  | some session =>
    { s with _agents := s._agents.replace agentPublicKey { session with _agent := some agent } }
  | none =>
    { s with _agents := s._agents.insert agentPublicKey
               { _agent := some agent, _description := none } }

/-- Member `registerDescription`: set the description of an existing session; an
unknown key is only logged. -/
def registerDescription (s : SchedulerPB QI Buffer) (agentPublicKey : String)
    (instance_ : Instance QI) : SchedulerPB QI Buffer :=
  match s._agents.lookup agentPublicKey with
  | none => s
  | some session =>
    { s with _agents :=
        s._agents.replace agentPublicKey { session with _description := some instance_ } }

/-- Member `unregisterDescription`: clear the description of an existing session; an
unknown key is only logged. -/
def unregisterDescription (s : SchedulerPB QI Buffer) (agentPublicKey : String) :
    SchedulerPB QI Buffer :=
  match s._agents.lookup agentPublicKey with
  | none => s
  | some session =>
    { s with _agents := s._agents.replace agentPublicKey { session with _description := none } }

/-- Member `send`: push the frame for the key itself. -/
def send (s : SchedulerPB QI Buffer) (agentPublicKey : String) (buffer : Buffer) :
    SchedulerPB QI Buffer :=
  { s with _queue := s._queue ++ [(agentPublicKey, buffer)] }

/-- Member `sendTo`: push the frame for `to` when `to` has a session; otherwise the
call only logs an error. -/
def sendTo (s : SchedulerPB QI Buffer) (_agentPublicKey : String) (to_ : String)
    (buffer : Buffer) : SchedulerPB QI Buffer :=
  match s._agents.lookup to_ with
  | none => s
  | some _ => { s with _queue := s._queue ++ [(to_, buffer)] }

/-- The body of the worker loop after `_queue.pop()` returned `p`: decode the frame
when `p.first` has a session with a bound agent. -/
def dispatchFrame (x : Externals QI QM Buffer) (s : SchedulerPB QI Buffer)
    (p : String × Buffer) : List (Event QI QM) :=
  match s._agents.lookup p.1 with
  | some session =>
    match session._agent with
    | some agent => MessageDecoder.decode x p.1 p.2 agent
    | none => []
  | none => []

/-- One iteration of the loop of `process`: `none` when the loop has ended
(`_stopping`) or `pop` has nothing to return, else the state after the pop together
with the callbacks of the iteration. -/
def processStep (x : Externals QI QM Buffer) (s : SchedulerPB QI Buffer) :
    Option (SchedulerPB QI Buffer × List (Event QI QM)) :=
  if s._stopping then none
  else
    match s._queue with
    | [] => none
    | p :: rest => some ({ s with _queue := rest }, dispatchFrame x s p)

/-- The callbacks of the worker while it pops the frames of `queue` front to back. -/
def drain (x : Externals QI QM Buffer) (s : SchedulerPB QI Buffer) :
    List (String × Buffer) → List (Event QI QM)
  | [] => []
  | p :: rest => dispatchFrame x s p ++ drain x s rest

/-- Member `process`, run until the queue is empty: the final state and every
callback invoked, in order. A stopping scheduler does nothing. -/
def process (x : Externals QI QM Buffer) (s : SchedulerPB QI Buffer) :
    SchedulerPB QI Buffer × List (Event QI QM) :=
  if s._stopping then (s, [])
  else ({ s with _queue := [] }, drain x s s._queue)

/-- The loop of `process` as iterated `processStep`, at most `fuel` iterations. -/
def processIter (x : Externals QI QM Buffer) :
    Nat → SchedulerPB QI Buffer → SchedulerPB QI Buffer × List (Event QI QM)
  | 0, s => (s, [])
  | fuel + 1, s =>
    match processStep x s with
    | none => (s, [])
    | some (s1, events) =>
      let r := processIter x fuel s1
      (r.1, events ++ r.2)

end SchedulerPB

/-! ## `OEFCoreLocalPB` -/

/-- Modelled from the spec: the `Fipa_Message` held by the client message classes
`CFP`, `Propose`, `Accept` and `Decline` of `clientmsg.hpp`, the FIPA sub-envelope
containing one of `Cfp | Propose | Accept | Decline` with the given `target`. -/
def clientFipa {QI QM : Type} (target : Nat) (msg : pb.Fipa_Message.MsgCase QI QM) :
    pb.Fipa_Message QI QM :=
  { target := target, msg := msg }

/-- Modelled from the spec: constructor `CFP{msgId, dialogueId, dest, target,
constraints}` of `clientmsg.hpp`, as far as its `Fipa_Message` goes: the payload is
set by the case of `CFPType = None | Bytes(string) | Query(QueryModel)`. -/
def CFP.fipa {QI QM : Type} (target : Nat) (constraints : CFPType QM) : pb.Fipa_Message QI QM :=
  clientFipa target
    (.kCfp (match constraints with
      | .None => .kNothing
      | .Bytes content => .kContent content
      | .Query query => .kQuery query.handle))

/-- Modelled from the spec: constructor `Propose{msgId, dialogueId, dest, target,
proposals}` of `clientmsg.hpp`, as far as its `Fipa_Message` goes: the payload is
set by the case of `ProposeType = Bytes(string) | Instances(list<Instance>)`. -/
def Propose.fipa {QI QM : Type} (target : Nat) (proposals : ProposeType QI) :
    pb.Fipa_Message QI QM :=
  clientFipa target
    (.kPropose (match proposals with
      | .Bytes content => .kContent content
      | .Instances instances => .kProposals (instances.map Instance.handle)))

/-- Modelled from the spec: constructor `Accept{msgId, dialogueId, dest, target}` of
`clientmsg.hpp`, as far as its `Fipa_Message` goes. -/
def Accept.fipa {QI QM : Type} (target : Nat) : pb.Fipa_Message QI QM :=
  clientFipa target .kAccept

/-- Modelled from the spec: constructor `Decline{msgId, dialogueId, dest, target}` of
`clientmsg.hpp`, as far as its `Fipa_Message` goes. -/
def Decline.fipa {QI QM : Type} (target : Nat) : pb.Fipa_Message QI QM :=
  clientFipa target .kDecline

/-- Class `OEFCoreLocalPB`: the agent key of `OEFCoreInterface`; the scheduler it
refers to is passed to every member and returned. -/
structure OEFCoreLocalPB where
  agentPublicKey_ : String
  deriving DecidableEq, Repr

namespace OEFCoreLocalPB

variable {QI QM Buffer : Type}

/-- The envelope every `send*` member builds around its payload. -/
def contentMessage (self : OEFCoreLocalPB) (msgId dialogueId : Nat)
    (payload : pb.Server_AgentMessage_Content.PayloadCase QI QM) :
    pb.Server_AgentMessage QI QM :=
  { answer_id := msgId
    payload := .kContent
      { dialogue_id := dialogueId, origin := self.agentPublicKey_, payload := payload } }

/-- Member `handshake`: `_scheduler.connect(agentPublicKey_)`. -/
def handshake (self : OEFCoreLocalPB) (sched : SchedulerPB QI Buffer) :
    Bool × SchedulerPB QI Buffer :=
  sched.connect self.agentPublicKey_

/-- Member `stop` (and the destructor): `_scheduler.disconnect(agentPublicKey_)`. -/
def stop (self : OEFCoreLocalPB) (sched : SchedulerPB QI Buffer) : SchedulerPB QI Buffer :=
  sched.disconnect self.agentPublicKey_

/-- Member `loop`: `_scheduler.loop(agentPublicKey_, agent)`. -/
def loop (self : OEFCoreLocalPB) (sched : SchedulerPB QI Buffer) (agent : AgentPtr) :
    SchedulerPB QI Buffer :=
  sched.loop self.agentPublicKey_ agent

/-- Member `sendMessage`. -/
def sendMessage (x : Externals QI QM Buffer) (self : OEFCoreLocalPB)
    (sched : SchedulerPB QI Buffer) (msgId dialogueId : Nat) (dest msg : String) :
    SchedulerPB QI Buffer :=
  let message : pb.Server_AgentMessage QI QM :=
    self.contentMessage msgId dialogueId (.kContent msg)
  sched.sendTo self.agentPublicKey_ dest (x.serialize message)

/-- Member `sendCFP`. -/
def sendCFP (x : Externals QI QM Buffer) (self : OEFCoreLocalPB)
    (sched : SchedulerPB QI Buffer) (msgId dialogueId : Nat) (dest : String) (target : Nat)
    (constraints : CFPType QM) : SchedulerPB QI Buffer :=
  let message : pb.Server_AgentMessage QI QM :=
    self.contentMessage msgId dialogueId (.kFipa (CFP.fipa target constraints))
  sched.sendTo self.agentPublicKey_ dest (x.serialize message)

/-- Member `sendPropose`. -/
def sendPropose (x : Externals QI QM Buffer) (self : OEFCoreLocalPB)
    (sched : SchedulerPB QI Buffer) (msgId dialogueId : Nat) (dest : String) (target : Nat)
    (proposals : ProposeType QI) : SchedulerPB QI Buffer :=
  let message : pb.Server_AgentMessage QI QM :=
    self.contentMessage msgId dialogueId (.kFipa (Propose.fipa target proposals))
  sched.sendTo self.agentPublicKey_ dest (x.serialize message)

/-- Member `sendAccept`. -/
def sendAccept (x : Externals QI QM Buffer) (self : OEFCoreLocalPB)
    (sched : SchedulerPB QI Buffer) (msgId dialogueId : Nat) (dest : String) (target : Nat) :
    SchedulerPB QI Buffer :=
  let message : pb.Server_AgentMessage QI QM :=
    self.contentMessage msgId dialogueId (.kFipa (Accept.fipa target))
  sched.sendTo self.agentPublicKey_ dest (x.serialize message)

/-- Member `sendDecline`. -/
def sendDecline (x : Externals QI QM Buffer) (self : OEFCoreLocalPB)
    (sched : SchedulerPB QI Buffer) (msgId dialogueId : Nat) (dest : String) (target : Nat) :
    SchedulerPB QI Buffer :=
  let message : pb.Server_AgentMessage QI QM :=
    self.contentMessage msgId dialogueId (.kFipa (Decline.fipa target))
  sched.sendTo self.agentPublicKey_ dest (x.serialize message)

end OEFCoreLocalPB

/-! ## Searching agents and services -/

/-- Member `LocalAgentSession::match`: a session without a description matches no
query; `check` is `QueryModel::check`, a pure predicate on instances. -/
def LocalAgentSession.match_ {QI QM : Type} (check : QueryModel QM → Instance QI → Bool)
    (session : LocalAgentSession QI) (query : QueryModel QM) : Bool :=
  match session._description with
  | none => false
  | some description => check query description

namespace ServiceDirectory

variable {QI QM : Type}

/-- Statement that the directory lists `agent` under the instance `inst`. -/
def Advertises (sd : ServiceDirectory QI) (inst : Instance QI) (agent : String) : Prop :=
  ∃ e ∈ sd.entries, e.1 = inst ∧ agent ∈ e.2

/-- Modelled from the spec: `register(instance, agent_key)`, an idempotent insert of
the key into the set indexed by `instance`. -/
def registerAgent [DecidableEq QI] (sd : ServiceDirectory QI) (inst : Instance QI)
    (agent : String) : ServiceDirectory QI :=
  if sd.entries.any (fun e => decide (e.1 = inst)) then
    { entries := sd.entries.map (fun e =>
        if e.1 = inst then (e.1, if agent ∈ e.2 then e.2 else e.2 ++ [agent]) else e) }
  else
    { entries := sd.entries ++ [(inst, [agent])] }

/-- Modelled from the spec: `unregister(instance, agent_key)` removes the key from
the set indexed by `instance`; the bucket is deleted when empty. -/
def unregisterAgent [DecidableEq QI] (sd : ServiceDirectory QI) (inst : Instance QI)
    (agent : String) : ServiceDirectory QI :=
  { entries := sd.entries.filterMap (fun e =>
      if e.1 = inst then
        (if e.2.filter (fun a => decide (a ≠ agent)) = [] then none
         else some (e.1, e.2.filter (fun a => decide (a ≠ agent))))
      else some e) }

/-- Modelled from the spec: `query(model)` returns, deduplicated, every key one of
whose advertised instances satisfies `model.check`. -/
def query (check : QueryModel QM → Instance QI → Bool) (sd : ServiceDirectory QI)
    (model : QueryModel QM) : List String :=
  sd.entries.foldl
    (fun res e =>
      if check model e.1 then e.2.foldl (fun r a => if a ∈ r then r else r ++ [a]) res
      else res)
    []

end ServiceDirectory

namespace SchedulerPB

variable {QI QM Buffer : Type}

/-- Member `registerService`: `_sd.registerAgent(instance, agentPublicKey)`. -/
def registerService [DecidableEq QI] (s : SchedulerPB QI Buffer) (agentPublicKey : String)
    (inst : Instance QI) : SchedulerPB QI Buffer :=
  { s with _sd := s._sd.registerAgent inst agentPublicKey }

/-- Member `unregisterService`: `_sd.unregisterAgent(instance, agentPublicKey)`. -/
def unregisterService [DecidableEq QI] (s : SchedulerPB QI Buffer) (agentPublicKey : String)
    (inst : Instance QI) : SchedulerPB QI Buffer :=
  { s with _sd := s._sd.unregisterAgent inst agentPublicKey }

/-- Member `searchAgents` (const): the keys of the sessions that match the model, in
the iteration order of `_agents`. -/
def searchAgents (check : QueryModel QM → Instance QI → Bool) (s : SchedulerPB QI Buffer)
    (_id : Nat) (model : QueryModel QM) : List String :=
  s._agents.entries.foldl
    (fun res e => if e.2.match_ check model then res ++ [e.1] else res) []

/-- Member `searchServices` (const): `_sd.query(model)`. -/
def searchServices (check : QueryModel QM → Instance QI → Bool) (s : SchedulerPB QI Buffer)
    (_id : Nat) (model : QueryModel QM) : List String :=
  s._sd.query check model

end SchedulerPB

/-! ## `Dialogue` and `Dialogues` -/

namespace pb

/-- Record `Agent_Message` with the fields `Dialogue::envelope` sets. -/
structure Agent_Message where
  dialogue_id : Nat
  destination : String
  content : String
  deriving DecidableEq, Repr

/-- The `payload` oneof of the client envelope `Envelope`, as far as
`Dialogue::envelope` uses it. -/
inductive Envelope where
  | kSendMessage (send_message : Agent_Message)
  | PAYLOAD_NOT_SET
  deriving DecidableEq, Repr

end pb

/-- Class `Dialogue<T>` without its back-reference `_dialogues`, which is passed to
the one member that uses it; `_msgId` is a `uint32_t`. -/
structure Dialogue (T : Type) where
  _uuid : Nat
  _dest : String
  _msgId : Nat
  _state : T
  deriving DecidableEq, Repr

/-- Class `Dialogues<T>`: the map from uuid to a shared handle of a dialogue; a null
handle is `none`. -/
structure Dialogues (T : Type) where
  _dialogues : AList (fun _ : Nat => Option (Dialogue T))

/-- How a member that dereferences a handle can go wrong. -/
inductive Fault where
  | assertionFailed
  | nullDereference
  deriving DecidableEq, Repr

namespace Dialogue

variable {T Buffer : Type}

/-- Getter `dest`. -/
def dest (d : Dialogue T) : String := d._dest

/-- Getter `uuid`. -/
def uuid (d : Dialogue T) : Nat := d._uuid

/-- Getter `msgId`. -/
def msgId (d : Dialogue T) : Nat := d._msgId

/-- Getter `getState`. -/
def getState (d : Dialogue T) : T := d._state

/-- Member `incrementMsgId`: `++_msgId` on a 32-bit unsigned counter. -/
def incrementMsgId (d : Dialogue T) : Dialogue T :=
  { d with _msgId := (d._msgId + 1) % 2 ^ 32 }

/-- Member `setState`. -/
def setState (d : Dialogue T) (t : T) : Dialogue T :=
  { d with _state := t }

/-- Member `envelope(const std::string &)`, not declared const: the serialised
`send_message` envelope and the dialogue after the call; `serialize` of `common.hpp`
is passed in. -/
def envelope (serialize : pb.Envelope → Buffer) (d : Dialogue T) (outgoing : String) :
    Buffer × Dialogue T :=
  (serialize (.kSendMessage
      { dialogue_id := d._uuid, destination := d._dest, content := outgoing }), d)

end Dialogue

namespace Dialogues

variable {T : Type}

/-- Number of entries of the map, `_dialogues.size()`. -/
def size (r : Dialogues T) : Nat := r._dialogues.entries.length

/-- Member `create`; `uuid` is the value `Uuid32::uuid()` yields for the new dialogue
and the state is default-constructed. The new handle is assigned to
`_dialogues[uuid]` whether or not the key exists. -/
def create [Inhabited T] (r : Dialogues T) (uuid : Nat) (dest : String) :
    Dialogue T × Dialogues T :=
  let dialogue : Dialogue T := { _uuid := uuid, _dest := dest, _msgId := 0, _state := default }
  (dialogue, { _dialogues := r._dialogues.insert dialogue.uuid (some dialogue) })

/-- Member `get(uint32_t id, const std::string &dest)`, logged as `get2`: dereference
the handle found for `id`, else insert a new dialogue with that uuid. -/
def get2 [Inhabited T] (r : Dialogues T) (id : Nat) (dest : String) :
    Except Fault (Dialogue T) × Dialogues T :=
  match r._dialogues.lookup id with
  | some (some dialogue) => (.ok dialogue, r)
  | some none => (.error .nullDereference, r)
  | none =>
    let dialogue : Dialogue T := { _uuid := id, _dest := dest, _msgId := 0, _state := default }
    (.ok dialogue, { _dialogues := r._dialogues.insert id (some dialogue) })

/-- Member `get(uint32_t id)`, logged as `get1`: `_dialogues[id]` creates a null handle
when `id` has no entry, then `assert(dialogue)` and the dereference. -/
def get1 (r : Dialogues T) (id : Nat) : Except Fault (Dialogue T) × Dialogues T :=
  match r._dialogues.lookup id with
  | some (some dialogue) => (.ok dialogue, r)
  | some none => (.error .assertionFailed, r)
  | none => (.error .assertionFailed, { _dialogues := r._dialogues.insert id none })

/-- Member `erase`. -/
def erase (r : Dialogues T) (id : Nat) : Dialogues T :=
  { _dialogues := r._dialogues.erase id }

end Dialogues

/-- Member `Dialogue::setFinished`: `_dialogues.erase(uuid())` on the registry the
dialogue refers to. -/
def Dialogue.setFinished {T : Type} (d : Dialogue T) (r : Dialogues T) : Dialogues T :=
  r.erase d.uuid

/-! ## Search through the local proxy, shutdown, and callbacks that throw -/

namespace OEFCoreLocalPB

variable {QI QM Buffer : Type}

/-- Member `searchAgents`: ask the scheduler, copy the keys into an `Agents` answer
with `answer_id = search_id` and `send` it to the proxy's own key. -/
def searchAgents (x : Externals QI QM Buffer) (check : QueryModel QM → Instance QI → Bool)
    (self : OEFCoreLocalPB) (sched : SchedulerPB QI Buffer) (search_id : Nat)
    (model : QueryModel QM) : SchedulerPB QI Buffer :=
  let agents_vec := sched.searchAgents check search_id model
  let answer : pb.Server_AgentMessage QI QM :=
    { answer_id := search_id
      payload := .kAgents (agents_vec.foldl (fun agents a => agents ++ [a]) []) }
  sched.send self.agentPublicKey_ (x.serialize answer)

/-- Member `searchServices`: as `searchAgents`, over the service directory. -/
def searchServices (x : Externals QI QM Buffer) (check : QueryModel QM → Instance QI → Bool)
    (self : OEFCoreLocalPB) (sched : SchedulerPB QI Buffer) (search_id : Nat)
    (model : QueryModel QM) : SchedulerPB QI Buffer :=
  let agents_vec := sched.searchServices check search_id model
  let answer : pb.Server_AgentMessage QI QM :=
    { answer_id := search_id
      payload := .kAgents (agents_vec.foldl (fun agents a => agents ++ [a]) []) }
  sched.send self.agentPublicKey_ (x.serialize answer)

end OEFCoreLocalPB

/-- What running a callback does: it returns, it throws an exception derived from
`std::exception`, or it throws anything else. -/
inductive CallbackResult where
  | returns
  | throwsStdException
  | throwsOther
  deriving DecidableEq, Repr

/-- How a call ends: it returns to its caller or an exception leaves it. -/
inductive Completion where
  | normal
  | exceptional
  deriving DecidableEq, Repr

/-- The agents' code: what each invocation of a callback does. -/
abbrev AgentBehaviour (QI QM : Type) := Event QI QM → CallbackResult

namespace MessageDecoder

variable {QI QM Buffer : Type}

/-- The invocations of a `try` block guarded by `catch(std::exception &)`: they run in
order until one throws; an exception derived from `std::exception` is caught and
logged, any other exception leaves the function. -/
def runCallbacks (run : AgentBehaviour QI QM) :
    List (Event QI QM) → List (Event QI QM) × Completion
  | [] => ([], .normal)
  | e :: rest =>
    match run e with
    | .returns => (e :: (runCallbacks run rest).1, (runCallbacks run rest).2)
    | .throwsStdException => ([e], .normal)
    | .throwsOther => ([e], .exceptional)

/-- Function `MessageDecoder::decode` with callbacks that may throw: the callbacks
invoked and how `decode` ends. -/
def decodeRun (x : Externals QI QM Buffer) (run : AgentBehaviour QI QM)
    (agentPublicKey : String) (buffer : Buffer) (agent : AgentPtr) :
    List (Event QI QM) × Completion :=
  runCallbacks run (decode x agentPublicKey buffer agent)

end MessageDecoder

namespace SchedulerPB

variable {QI QM Buffer : Type}

/-- Member `stop`: set `_stopping`, push the pair of the empty key and the empty
buffer; the join then waits for the worker. -/
def stop (x : Externals QI QM Buffer) (s : SchedulerPB QI Buffer) : SchedulerPB QI Buffer :=
  { s with _stopping := true, _queue := s._queue ++ [("", x.emptyBuffer)] }

/-- The body of the worker loop from the second test of `_stopping` on, for a worker
whose `pop` has just returned `p`. -/
def afterPop (x : Externals QI QM Buffer) (s : SchedulerPB QI Buffer) (p : String × Buffer) :
    List (Event QI QM) :=
  if s._stopping then [] else dispatchFrame x s p

/-- The body of the worker loop for the frame `p`, with callbacks that may throw. -/
def dispatchFrameRun (x : Externals QI QM Buffer) (run : AgentBehaviour QI QM)
    (s : SchedulerPB QI Buffer) (p : String × Buffer) : List (Event QI QM) × Completion :=
  match s._agents.lookup p.1 with
  | some session =>
    match session._agent with
    | some agent => MessageDecoder.decodeRun x run p.1 p.2 agent
    | none => ([], .normal)
  | none => ([], .normal)

/-- The worker popping the frames of `queue` front to back, with callbacks that may
throw: `process` has no handler, so an exception that leaves `decode` ends the loop
and the frames behind it are not dispatched. -/
def drainRun (x : Externals QI QM Buffer) (run : AgentBehaviour QI QM)
    (s : SchedulerPB QI Buffer) : List (String × Buffer) → List (Event QI QM) × Completion
  | [] => ([], .normal)
  | p :: rest =>
    match (dispatchFrameRun x run s p).2 with
    | .normal =>
      ((dispatchFrameRun x run s p).1 ++ (drainRun x run s rest).1, (drainRun x run s rest).2)
    | .exceptional => ((dispatchFrameRun x run s p).1, .exceptional)

end SchedulerPB

/-! ## `OEFCoreNetworkProxy::handshake` -/

namespace pb

/-- Record `Server_Phrase` as the handshake reads it: `phrase()` and `has_failure()`. -/
structure Server_Phrase where
  phrase : String
  has_failure : Bool
  deriving DecidableEq, Repr

/-- Record `Server_Connected` as the handshake reads it: `status()`. -/
structure Server_Connected where
  status : Bool
  deriving DecidableEq, Repr

end pb

/-- A message the handshake hands to `asyncWriteBuffer`: `Agent_Server_ID` with its
`public_key` or `Agent_Server_Answer` with its `answer`. -/
inductive HandshakeWrite where
  | Agent_Server_ID (public_key : String)
  | Agent_Server_Answer (answer : String)
  deriving DecidableEq, Repr

/-- What the four completion handlers of the handshake receive: whether the error
code is set, and for the two reads the message the received buffer deserialises to. -/
structure HandshakeIO where
  writeIdError : Bool
  readPhraseError : Bool
  phrase : pb.Server_Phrase
  writeAnswerError : Bool
  readConnectedError : Bool
  connected : pb.Server_Connected
  deriving DecidableEq, Repr

/-- Class `OEFCoreNetworkProxy`: the agent key of `OEFCoreInterface`. -/
structure OEFCoreNetworkProxy where
  agentPublicKey_ : String
  deriving DecidableEq, Repr

/-- Member `OEFCoreNetworkProxy::handshake`: the value returned once `finished` is
set, and the messages handed to `asyncWriteBuffer` in order. The answer is the phrase
after `std::reverse`. The handler of the last read does not test its error code. -/
def OEFCoreNetworkProxy.handshake (self : OEFCoreNetworkProxy) (io : HandshakeIO) :
    Bool × List HandshakeWrite :=
  let id := HandshakeWrite.Agent_Server_ID self.agentPublicKey_
  if io.writeIdError then (false, [id])
  else if io.readPhraseError then (false, [id])
  else if io.phrase.has_failure then (false, [id])
  else
    let answer_s := String.mk io.phrase.phrase.data.reverse
    let answer := HandshakeWrite.Agent_Server_Answer answer_s
    if io.writeAnswerError then (false, [id, answer])
    else (io.connected.status, [id, answer])

/-! ## Invariant of the dialogue registry -/

/-- Every entry of the registry holds a dialogue (not a null handle) whose uuid is
the key of the entry. -/
def Dialogues.WellFormed {T : Type} (r : Dialogues T) : Prop :=
  ∀ (k : Nat) (handle : Option (Dialogue T)), r._dialogues.lookup k = some handle →
    ∃ d, handle = some d ∧ d.uuid = k

/-! ## Drivers and sample data -/

/-- The calls `sendMessage(msgId_i, dialogueId, dest, body_i)` issued one after the
other from one local proxy, in list order. -/
def sendMessages {QI QM Buffer : Type} (x : Externals QI QM Buffer) (self : OEFCoreLocalPB)
    (sched : SchedulerPB QI Buffer) (dialogueId : Nat) (dest : String) :
    List (Nat × String) → SchedulerPB QI Buffer
  | [] => sched
  | m :: rest =>
    sendMessages x self (self.sendMessage x sched m.1 dialogueId dest m.2) dialogueId dest rest

/-- A codec for examples: a buffer is either a serialised envelope or undecodable. -/
def sampleExternals : Externals Nat Nat (Option (pb.Server_AgentMessage Nat Nat)) where
  serialize := fun m => some m
  deserialize := fun b => b
  defaultCFPType := CFPType.Bytes ""
  defaultProposeType := ProposeType.Bytes ""
  emptyBuffer := none

/-- A freshly constructed scheduler: no session, empty queue, not stopping. -/
def emptyScheduler : SchedulerPB Nat (Option (pb.Server_AgentMessage Nat Nat)) where
  _agents := ∅
  _queue := []
  _stopping := false
  _sd := { entries := [] }

/-- The scheduler of the local transfer test after its three agents have started:
`Agent1`, `Agent2`, `Agent3` connected and bound to the agent objects 1, 2, 3. -/
def sampleScheduler : SchedulerPB Nat (Option (pb.Server_AgentMessage Nat Nat)) :=
  let s1 := ((emptyScheduler.connect "Agent1").2).loop "Agent1" 1
  let s2 := ((s1.connect "Agent2").2).loop "Agent2" 2
  ((s2.connect "Agent3").2).loop "Agent3" 3

/-- A registry with one open dialogue: uuid 5 with `Agent2`, three messages sent. -/
def sampleDialogues : Dialogues Nat where
  _dialogues := (∅ : AList (fun _ : Nat => Option (Dialogue Nat))).insert 5
    (some { _uuid := 5, _dest := "Agent2", _msgId := 3, _state := 0 })

/-- A dialogue whose message counter holds the largest 32-bit value. -/
def sampleLastMsgId : Dialogue Nat :=
  { _uuid := 5, _dest := "Agent2", _msgId := 4294967295, _state := 0 }

/-- Agents whose callbacks all throw something that is not a `std::exception`. -/
def sampleThrowingAgents : AgentBehaviour Nat Nat :=
  fun _ => CallbackResult.throwsOther

/-- A handshake in which the first three steps succeed and the last read reports an
I/O error together with a buffer that deserialises to `status = true`. -/
def sampleLastReadError : HandshakeIO where
  writeIdError := false
  readPhraseError := false
  phrase := { phrase := "abc", has_failure := false }
  writeAnswerError := false
  readConnectedError := true
  connected := { status := true }

/-- A handshake in which every step succeeds and the broker accepts. -/
def sampleHandshakeOk : HandshakeIO where
  writeIdError := false
  readPhraseError := false
  phrase := { phrase := "abc", has_failure := false }
  writeAnswerError := false
  readConnectedError := false
  connected := { status := true }

/-! ## Auxiliary lemmas -/

theorem sampleExternals_roundTrip : sampleExternals.RoundTrip :=
  fun _ => rfl

theorem foldl_append_singleton {α β : Type} (f : α → β) (l : List α) (init : List β) :
    l.foldl (fun acc a => acc ++ [f a]) init = init ++ l.map f := by
  induction l generalizing init with
  | nil => simp
  | cons a l ih => simp [List.foldl_cons, ih]

namespace SchedulerPB

variable {QI QM Buffer : Type}

theorem lookup_eq_none_iff (s : SchedulerPB QI Buffer) (k : String) :
    s._agents.lookup k = none ↔ k ∉ s._agents :=
  AList.lookup_eq_none

theorem exists_lookup_of_mem (s : SchedulerPB QI Buffer) (k : String) (h : k ∈ s._agents) :
    ∃ session, s._agents.lookup k = some session := by
  have h1 : (s._agents.lookup k).isSome := AList.lookup_isSome.mpr h
  exact Option.isSome_iff_exists.mp h1

theorem connect_of_mem (s : SchedulerPB QI Buffer) (k : String) (h : k ∈ s._agents) :
    s.connect k = (false, s) := by
  obtain ⟨session, hs⟩ := exists_lookup_of_mem s k h
  simp [connect, hs]

theorem connect_of_not_mem (s : SchedulerPB QI Buffer) (k : String) (h : k ∉ s._agents) :
    s.connect k =
      (true, { s with _agents := s._agents.insert k { _agent := none, _description := none } }) := by
  have hs : s._agents.lookup k = none := (lookup_eq_none_iff s k).mpr h
  simp [connect, hs]

end SchedulerPB

namespace SchedulerPB

variable {QI QM Buffer : Type}

theorem sendTo_of_lookup (s : SchedulerPB QI Buffer) (sender dest : String) (buffer : Buffer)
    (session : LocalAgentSession QI) (h : s._agents.lookup dest = some session) :
    s.sendTo sender dest buffer = { s with _queue := s._queue ++ [(dest, buffer)] } := by
  simp [sendTo, h]

theorem sendTo_of_not_mem (s : SchedulerPB QI Buffer) (sender dest : String) (buffer : Buffer)
    (h : dest ∉ s._agents) : s.sendTo sender dest buffer = s := by
  have hs : s._agents.lookup dest = none := (lookup_eq_none_iff s dest).mpr h
  simp [sendTo, hs]

theorem dispatchFrame_congr (x : Externals QI QM Buffer) (s t : SchedulerPB QI Buffer)
    (h : s._agents = t._agents) (p : String × Buffer) :
    dispatchFrame x s p = dispatchFrame x t p := by
  simp [dispatchFrame, h]

theorem drain_congr (x : Externals QI QM Buffer) (s t : SchedulerPB QI Buffer)
    (h : s._agents = t._agents) (queue : List (String × Buffer)) :
    drain x s queue = drain x t queue := by
  induction queue with
  | nil => rfl
  | cons p rest ih => simp [drain, ih, dispatchFrame_congr x s t h]

theorem drain_append (x : Externals QI QM Buffer) (s : SchedulerPB QI Buffer)
    (q1 q2 : List (String × Buffer)) :
    drain x s (q1 ++ q2) = drain x s q1 ++ drain x s q2 := by
  induction q1 with
  | nil => rfl
  | cons p rest ih => simp [drain, ih]

theorem process_events_of_running (x : Externals QI QM Buffer) (s : SchedulerPB QI Buffer)
    (h : s._stopping = false) : (process x s).2 = drain x s s._queue := by
  simp [process, h]

/-- Iterating the loop body as often as the queue is long gives `process`. -/
theorem processIter_eq_process (x : Externals QI QM Buffer) (fuel : Nat)
    (s : SchedulerPB QI Buffer) (hfuel : s._queue.length ≤ fuel) :
    processIter x fuel s = process x s := by
  induction fuel generalizing s with
  | zero =>
    obtain ⟨agents, queue, stopping, sd⟩ := s
    have hq : queue = [] := List.length_eq_zero.mp (Nat.le_zero.mp hfuel)
    subst hq
    cases stopping <;> simp [processIter, process, drain]
  | succ n ih =>
    obtain ⟨agents, queue, stopping, sd⟩ := s
    cases stopping
    · cases queue with
      | nil => simp [processIter, processStep, process, drain]
      | cons p rest =>
        have hlen : rest.length ≤ n := by simpa using hfuel
        have hrec := ih { _agents := agents, _queue := rest, _stopping := false, _sd := sd } hlen
        have hdrain :
            drain x { _agents := agents, _queue := rest, _stopping := false, _sd := sd } rest =
              drain x { _agents := agents, _queue := p :: rest, _stopping := false, _sd := sd }
                rest :=
          drain_congr x
            { _agents := agents, _queue := rest, _stopping := false, _sd := sd }
            { _agents := agents, _queue := p :: rest, _stopping := false, _sd := sd } rfl rest
        simp [processIter, processStep, hrec, process, drain, hdrain]
    · simp [processIter, processStep, process]

/-- Dispatching a frame for a destination bound to `agent` decodes it for `agent`. -/
theorem dispatchFrame_serialize (x : Externals QI QM Buffer)
    (s : SchedulerPB QI Buffer) (dest : String) (session : LocalAgentSession QI)
    (agent : AgentPtr) (hdest : s._agents.lookup dest = some session)
    (hagent : session._agent = some agent) (m : pb.Server_AgentMessage QI QM) :
    dispatchFrame x s (dest, x.serialize m) =
      MessageDecoder.decode x dest (x.serialize m) agent := by
  simp [dispatchFrame, hdest, hagent]

end SchedulerPB

namespace OEFCoreLocalPB

variable {QI QM Buffer : Type}

/-- On a running scheduler, `sendTo` of a serialised envelope to a destination bound
to `agent` adds, after everything the queue already holds, the callbacks of decoding
that envelope for `agent`. -/
theorem process_sendTo_serialize (x : Externals QI QM Buffer) (s : SchedulerPB QI Buffer)
    (sender dest : String) (session : LocalAgentSession QI) (agent : AgentPtr)
    (hdest : s._agents.lookup dest = some session) (hagent : session._agent = some agent)
    (hrun : s._stopping = false) (m : pb.Server_AgentMessage QI QM) :
    (SchedulerPB.process x (s.sendTo sender dest (x.serialize m))).2 =
      (SchedulerPB.process x s).2 ++ MessageDecoder.decode x dest (x.serialize m) agent := by
  rw [SchedulerPB.sendTo_of_lookup s sender dest _ session hdest]
  have h1 :
      (SchedulerPB.process x
          { s with _queue := s._queue ++ [(dest, x.serialize m)] }).2 =
        SchedulerPB.drain x { s with _queue := s._queue ++ [(dest, x.serialize m)] }
          (s._queue ++ [(dest, x.serialize m)]) :=
    SchedulerPB.process_events_of_running x _ hrun
  have h2 : ∀ queue : List (String × Buffer),
      SchedulerPB.drain x { s with _queue := s._queue ++ [(dest, x.serialize m)] } queue =
        SchedulerPB.drain x s queue :=
    fun queue =>
      SchedulerPB.drain_congr x { s with _queue := s._queue ++ [(dest, x.serialize m)] } s rfl
        queue
  rw [h1, SchedulerPB.process_events_of_running x s hrun, SchedulerPB.drain_append, h2, h2]
  simp [SchedulerPB.drain, SchedulerPB.dispatchFrame_serialize x s dest session agent hdest hagent]

theorem decode_sendMessage (x : Externals QI QM Buffer) (hx : x.RoundTrip)
    (self : OEFCoreLocalPB) (key : String) (agent : AgentPtr) (msgId dialogueId : Nat)
    (msg : String) :
    MessageDecoder.decode x key
        (x.serialize (self.contentMessage msgId dialogueId (.kContent msg))) agent =
      [(agent, Callback.onMessage msgId dialogueId self.agentPublicKey_ msg)] := by
  simp [MessageDecoder.decode, hx _, contentMessage]

theorem decode_sendCFP (x : Externals QI QM Buffer) (hx : x.RoundTrip)
    (self : OEFCoreLocalPB) (key : String) (agent : AgentPtr) (msgId dialogueId target : Nat)
    (constraints : CFPType QM) :
    MessageDecoder.decode x key
        (x.serialize (self.contentMessage msgId dialogueId
          (.kFipa (CFP.fipa target constraints)))) agent =
      [(agent, Callback.onCFP msgId dialogueId self.agentPublicKey_ target constraints)] := by
  cases constraints <;>
    simp [MessageDecoder.decode, MessageDecoder.dispatch, hx _, contentMessage, CFP.fipa,
      clientFipa]

theorem decode_sendPropose (x : Externals QI QM Buffer) (hx : x.RoundTrip)
    (self : OEFCoreLocalPB) (key : String) (agent : AgentPtr) (msgId dialogueId target : Nat)
    (proposals : ProposeType QI) :
    MessageDecoder.decode x key
        (x.serialize (self.contentMessage msgId dialogueId
          (.kFipa (Propose.fipa target proposals)))) agent =
      [(agent, Callback.onPropose msgId dialogueId self.agentPublicKey_ target proposals)] := by
  cases proposals <;>
    simp [MessageDecoder.decode, MessageDecoder.dispatch, hx _, contentMessage, Propose.fipa,
      clientFipa, foldl_append_singleton, Function.comp_def]

theorem decode_sendAccept (x : Externals QI QM Buffer) (hx : x.RoundTrip)
    (self : OEFCoreLocalPB) (key : String) (agent : AgentPtr) (msgId dialogueId target : Nat) :
    MessageDecoder.decode x key
        (x.serialize (self.contentMessage msgId dialogueId (.kFipa (Accept.fipa target)))) agent =
      [(agent, Callback.onAccept msgId dialogueId self.agentPublicKey_ target)] := by
  simp [MessageDecoder.decode, MessageDecoder.dispatch, hx _, contentMessage, Accept.fipa,
    clientFipa]

theorem decode_sendDecline (x : Externals QI QM Buffer) (hx : x.RoundTrip)
    (self : OEFCoreLocalPB) (key : String) (agent : AgentPtr) (msgId dialogueId target : Nat) :
    MessageDecoder.decode x key
        (x.serialize (self.contentMessage msgId dialogueId (.kFipa (Decline.fipa target)))) agent =
      [(agent, Callback.onDecline msgId dialogueId self.agentPublicKey_ target)] := by
  simp [MessageDecoder.decode, MessageDecoder.dispatch, hx _, contentMessage, Decline.fipa,
    clientFipa]

end OEFCoreLocalPB

/-! ## Theorems -/

namespace SchedulerPB

variable {QI QM Buffer : Type}

/-- C1: `connect(k)` returns true exactly when no session with key `k` exists before
the call; when it returns true, a session for `k` exists afterwards and `nbAgents()`
is its previous value plus 1. -/
theorem connect_true_iff_no_session (s : SchedulerPB QI Buffer) (k : String) :
    ((s.connect k).1 = true ↔ k ∉ s._agents) ∧
    ((s.connect k).1 = true →
      k ∈ (s.connect k).2._agents ∧ (s.connect k).2.nbAgents = s.nbAgents + 1) := by
  by_cases h : k ∈ s._agents
  · simp [connect_of_mem s k h, h]
  · rw [connect_of_not_mem s k h]
    refine ⟨by simp [h], fun _ => ⟨?_, ?_⟩⟩
    · simp [AList.mem_insert]
    · show (AList.insert k _ s._agents).entries.length = s._agents.entries.length + 1
      rw [AList.insert_entries_of_neg h, List.length_cons]

/-- Witness for C1 on the scheduler of the local transfer test: a fourth key connects
and the number of agents goes from 3 to 4. -/
theorem connect_true_iff_no_session_witness :
    (sampleScheduler.connect "Agent4").1 = true ∧
    "Agent4" ∈ (sampleScheduler.connect "Agent4").2._agents ∧
    (sampleScheduler.connect "Agent4").2.nbAgents = 3 + 1 :=
  ⟨by decide, (connect_true_iff_no_session sampleScheduler "Agent4").2 (by decide)⟩

/-- C2: when key `k` already has a session, `connect(k)` returns false and leaves the
scheduler, hence the whole session table, unchanged; of two successive `connect(k)`
calls on a state without `k` the first succeeds and the second is refused. -/
theorem connect_duplicate_refused (s : SchedulerPB QI Buffer) (k : String) :
    (k ∈ s._agents → s.connect k = (false, s)) ∧
    (k ∉ s._agents →
      (s.connect k).1 = true ∧ (s.connect k).2.connect k = (false, (s.connect k).2)) := by
  refine ⟨connect_of_mem s k, fun h => ?_⟩
  have hmem : k ∈ (s.connect k).2._agents := by
    rw [connect_of_not_mem s k h]
    simp [AList.mem_insert]
  exact ⟨by rw [connect_of_not_mem s k h], connect_of_mem _ k hmem⟩

/-- Witness for C2: `Agent2` is connected in the sample scheduler and is refused; the
key `A` is not, so its first `connect` succeeds and its second is refused. -/
theorem connect_duplicate_refused_witness :
    sampleScheduler.connect "Agent2" = (false, sampleScheduler) ∧
    (sampleScheduler.connect "A").1 = true ∧
    ((sampleScheduler.connect "A").2.connect "A").1 = false :=
  ⟨(connect_duplicate_refused sampleScheduler "Agent2").1 (by decide),
   ((connect_duplicate_refused sampleScheduler "A").2 (by decide)).1,
   congrArg Prod.fst ((connect_duplicate_refused sampleScheduler "A").2 (by decide)).2⟩

end SchedulerPB

namespace OEFCoreLocalPB

variable {QI QM Buffer : Type}

/-- C3: with `B` connected and bound to the agent object `b` on a running scheduler,
the calls `sendMessage(msgId_i, did, B, body_i)` issued in list order from the local
proxy of `A`, followed by the worker draining the queue, invoke after the callbacks
of the frames queued before exactly `b.onMessage(msgId_i, did, A, body_i)`, once per
call and in the same order; on an empty queue these `n` callbacks are all there is. -/
theorem sendMessages_delivered_in_order (x : Externals QI QM Buffer) (hx : x.RoundTrip)
    (A : OEFCoreLocalPB) (s : SchedulerPB QI Buffer) (B : String)
    (session : LocalAgentSession QI) (b : AgentPtr)
    (hB : s._agents.lookup B = some session) (hb : session._agent = some b)
    (hrun : s._stopping = false) (did : Nat) (msgs : List (Nat × String)) :
    (SchedulerPB.process x (sendMessages x A s did B msgs)).2 =
        (SchedulerPB.process x s).2 ++
          msgs.map (fun m => (b, Callback.onMessage m.1 did A.agentPublicKey_ m.2)) ∧
    (s._queue = [] →
      (SchedulerPB.process x (sendMessages x A s did B msgs)).2 =
          msgs.map (fun m => (b, Callback.onMessage m.1 did A.agentPublicKey_ m.2)) ∧
      (SchedulerPB.process x (sendMessages x A s did B msgs)).2.length = msgs.length) := by
  have main : ∀ (msgs : List (Nat × String)) (s : SchedulerPB QI Buffer),
      s._agents.lookup B = some session → s._stopping = false →
      (SchedulerPB.process x (sendMessages x A s did B msgs)).2 =
        (SchedulerPB.process x s).2 ++
          msgs.map (fun m => (b, Callback.onMessage m.1 did A.agentPublicKey_ m.2)) := by
    intro msgs
    induction msgs with
    | nil => intro s _ _; simp [sendMessages]
    | cons m rest ih =>
      intro s hB hrun
      have hstep :
          (SchedulerPB.process x (A.sendMessage x s m.1 did B m.2)).2 =
            (SchedulerPB.process x s).2 ++
              [(b, Callback.onMessage m.1 did A.agentPublicKey_ m.2)] := by
        rw [← decode_sendMessage x hx A B b m.1 did m.2]
        exact process_sendTo_serialize x s A.agentPublicKey_ B session b hB hb hrun _
      have hstate : A.sendMessage x s m.1 did B m.2 =
          { s with _queue := s._queue ++
              [(B, x.serialize (A.contentMessage m.1 did (.kContent m.2)))] } :=
        SchedulerPB.sendTo_of_lookup s A.agentPublicKey_ B _ session hB
      have hB1 : (A.sendMessage x s m.1 did B m.2)._agents.lookup B = some session := by
        rw [hstate]; exact hB
      have hrun1 : (A.sendMessage x s m.1 did B m.2)._stopping = false := by
        rw [hstate]; exact hrun
      show (SchedulerPB.process x
          (sendMessages x A (A.sendMessage x s m.1 did B m.2) did B rest)).2 = _
      rw [ih _ hB1 hrun1, hstep]
      simp
  refine ⟨main msgs s hB hrun, fun hq => ?_⟩
  have hempty : (SchedulerPB.process x s).2 = [] := by
    rw [SchedulerPB.process_events_of_running x s hrun, hq]; rfl
  have h := main msgs s hB hrun
  rw [hempty, List.nil_append] at h
  exact ⟨h, by rw [h, List.length_map]⟩

/-- Witness for C3: `Agent1` sends two messages of dialogue 1 to `Agent2` in the
sample scheduler; agent object 2 gets both, in send order, and nothing else fires. -/
theorem sendMessages_delivered_in_order_witness :
    (SchedulerPB.process sampleExternals
        (sendMessages sampleExternals { agentPublicKey_ := "Agent1" } sampleScheduler 1 "Agent2"
          [(1, "Hello world"), (2, "Welcome back")])).2 =
      [(2, Callback.onMessage 1 1 "Agent1" "Hello world"),
       (2, Callback.onMessage 2 1 "Agent1" "Welcome back")] :=
  ((sendMessages_delivered_in_order sampleExternals sampleExternals_roundTrip
      { agentPublicKey_ := "Agent1" } sampleScheduler "Agent2"
      { _agent := some 2, _description := none } 2 (by decide) rfl rfl 1
      [(1, "Hello world"), (2, "Welcome back")]).2 rfl).1

/-- C4: with `B` connected and bound to the agent object `b`, `sendMessage(msgId,
dialogueId, B, msg)` from the local proxy of `A` appends exactly one frame to the
dispatch queue and leaves the session table alone; the frame is addressed to `B` and
deserialises to the envelope with `answer_id = msgId`, `dialogue_id = dialogueId`,
`origin = A`, `content = msg`; dispatching it invokes `b.onMessage(msgId, dialogueId,
A, msg)` and nothing else, so every callback of the dispatch is on `b`. -/
theorem sendMessage_one_frame_onMessage (x : Externals QI QM Buffer) (hx : x.RoundTrip)
    (A : OEFCoreLocalPB) (s : SchedulerPB QI Buffer) (B : String)
    (session : LocalAgentSession QI) (b : AgentPtr)
    (hB : s._agents.lookup B = some session) (hb : session._agent = some b)
    (msgId dialogueId : Nat) (msg : String) :
    (A.sendMessage x s msgId dialogueId B msg)._queue =
        s._queue ++ [(B, x.serialize (A.contentMessage msgId dialogueId (.kContent msg)))] ∧
    (A.sendMessage x s msgId dialogueId B msg)._agents = s._agents ∧
    x.deserialize (x.serialize (A.contentMessage msgId dialogueId (.kContent msg))) =
        some { answer_id := msgId
               payload := .kContent { dialogue_id := dialogueId
                                      origin := A.agentPublicKey_
                                      payload := .kContent msg } } ∧
    SchedulerPB.dispatchFrame x (A.sendMessage x s msgId dialogueId B msg)
        (B, x.serialize (A.contentMessage msgId dialogueId (.kContent msg))) =
      [(b, Callback.onMessage msgId dialogueId A.agentPublicKey_ msg)] ∧
    (∀ e ∈ SchedulerPB.dispatchFrame x (A.sendMessage x s msgId dialogueId B msg)
        (B, x.serialize (A.contentMessage msgId dialogueId (.kContent msg))), e.1 = b) := by
  have hstate : A.sendMessage x s msgId dialogueId B msg =
      { s with _queue := s._queue ++
          [(B, x.serialize (A.contentMessage msgId dialogueId (.kContent msg)))] } :=
    SchedulerPB.sendTo_of_lookup s A.agentPublicKey_ B _ session hB
  have hdisp :
      SchedulerPB.dispatchFrame x (A.sendMessage x s msgId dialogueId B msg)
          (B, x.serialize (A.contentMessage msgId dialogueId (.kContent msg))) =
        [(b, Callback.onMessage msgId dialogueId A.agentPublicKey_ msg)] := by
    rw [SchedulerPB.dispatchFrame_congr x _ s (by rw [hstate]),
      SchedulerPB.dispatchFrame_serialize x s B session b hB hb,
      decode_sendMessage x hx A B b msgId dialogueId msg]
  refine ⟨by rw [hstate], by rw [hstate], hx _, hdisp, ?_⟩
  intro e he
  rw [hdisp] at he
  rw [List.mem_singleton.mp he]

/-- Witness for C4: the first `sendMessage` of the local transfer test, from `Agent1`
to `Agent2`, on the sample scheduler. -/
theorem sendMessage_one_frame_onMessage_witness :
    SchedulerPB.dispatchFrame sampleExternals
        (sendMessage sampleExternals { agentPublicKey_ := "Agent1" } sampleScheduler 1 1
          "Agent2" "Hello world")
        ("Agent2", sampleExternals.serialize
          (contentMessage { agentPublicKey_ := "Agent1" } 1 1 (.kContent "Hello world"))) =
      [(2, Callback.onMessage 1 1 "Agent1" "Hello world")] :=
  (sendMessage_one_frame_onMessage sampleExternals sampleExternals_roundTrip
      { agentPublicKey_ := "Agent1" } sampleScheduler "Agent2"
      { _agent := some 2, _description := none } 2 (by decide) rfl 1 1 "Hello world").2.2.2.1

end OEFCoreLocalPB

namespace SchedulerPB

variable {QI QM Buffer : Type}

/-- C5, refuted as stated: in the sample scheduler `Ghost` has no session, and
`sendMessage(1, 9, "Ghost", "hi")` from `Agent1` enqueues no frame addressed to
`Agent1` (the queue stays empty), so draining the queue invokes no
`onDialogueError(_, 9, "Agent1")` on the agent object of `Agent1`. -/
theorem sendTo_unknown_no_dialogueError :
    "Ghost" ∉ sampleScheduler._agents ∧
    (¬ ∃ frame ∈ (OEFCoreLocalPB.sendMessage sampleExternals { agentPublicKey_ := "Agent1" }
          sampleScheduler 1 9 "Ghost" "hi")._queue, frame.1 = "Agent1") ∧
    (¬ ∃ answerId : Nat, (1, Callback.onDialogueError answerId 9 "Agent1") ∈
        (process sampleExternals
          (OEFCoreLocalPB.sendMessage sampleExternals { agentPublicKey_ := "Agent1" }
            sampleScheduler 1 9 "Ghost" "hi")).2) := by
  have hq : (OEFCoreLocalPB.sendMessage sampleExternals { agentPublicKey_ := "Agent1" }
      sampleScheduler 1 9 "Ghost" "hi")._queue = [] := by decide
  have hp : (process sampleExternals
      (OEFCoreLocalPB.sendMessage sampleExternals { agentPublicKey_ := "Agent1" }
        sampleScheduler 1 9 "Ghost" "hi")).2 = [] := by decide
  refine ⟨by decide, ?_, ?_⟩
  · rw [hq]; simp
  · rw [hp]; simp

/-- C5, amended: when `to` has no session, `sendTo(from, to, bytes)` only logs: it
returns the scheduler unchanged, so nothing is enqueued, the worker invokes the same
callbacks as before, and no session for `to` is created; `sendMessage` from a local
proxy to such a destination leaves the scheduler unchanged as well. -/
theorem sendTo_unknown_only_logs (x : Externals QI QM Buffer) (s : SchedulerPB QI Buffer)
    (sender dest : String) (buffer : Buffer) (h : dest ∉ s._agents) :
    s.sendTo sender dest buffer = s ∧
    (s.sendTo sender dest buffer)._queue = s._queue ∧
    (process x (s.sendTo sender dest buffer)).2 = (process x s).2 ∧
    dest ∉ (s.sendTo sender dest buffer)._agents ∧
    (∀ (A : OEFCoreLocalPB) (msgId dialogueId : Nat) (msg : String),
      A.sendMessage x s msgId dialogueId dest msg = s) := by
  have hs : s.sendTo sender dest buffer = s := sendTo_of_not_mem s sender dest buffer h
  refine ⟨hs, by rw [hs], by rw [hs], by rw [hs]; exact h, ?_⟩
  intro A msgId dialogueId msg
  exact sendTo_of_not_mem s A.agentPublicKey_ dest _ h

/-- Witness for the amended C5: the message of `Agent1` to `Ghost` leaves the sample
scheduler as it was. -/
theorem sendTo_unknown_only_logs_witness :
    OEFCoreLocalPB.sendMessage sampleExternals { agentPublicKey_ := "Agent1" }
      sampleScheduler 1 9 "Ghost" "hi" = sampleScheduler :=
  (sendTo_unknown_only_logs sampleExternals sampleScheduler "Agent1" "Ghost" none
      (by decide)).2.2.2.2 { agentPublicKey_ := "Agent1" } 1 9 "hi"

end SchedulerPB

namespace OEFCoreLocalPB

variable {QI QM Buffer : Type}

/-- C6: with `B` connected and bound to the agent object `b` on a running scheduler,
a FIPA message sent through the local proxy of `A` arrives, after the callbacks of
the frames queued before, as the callback of the same kind with the same identifiers
and payload: `sendCFP` gives `b.onCFP(msgId, did, A, target, c)` for every `c`,
`sendPropose` gives `b.onPropose(msgId, did, A, target, p)` for every `p` (the empty
instance list included), `sendAccept` and `sendDecline` give `b.onAccept(msgId, did,
A, target)` and `b.onDecline(msgId, did, A, target)`. -/
theorem fipa_send_arrives_same_kind (x : Externals QI QM Buffer) (hx : x.RoundTrip)
    (A : OEFCoreLocalPB) (s : SchedulerPB QI Buffer) (B : String)
    (session : LocalAgentSession QI) (b : AgentPtr)
    (hB : s._agents.lookup B = some session) (hb : session._agent = some b)
    (hrun : s._stopping = false) (msgId did target : Nat) :
    (∀ c : CFPType QM,
      (SchedulerPB.process x (A.sendCFP x s msgId did B target c)).2 =
        (SchedulerPB.process x s).2 ++
          [(b, Callback.onCFP msgId did A.agentPublicKey_ target c)]) ∧
    (∀ p : ProposeType QI,
      (SchedulerPB.process x (A.sendPropose x s msgId did B target p)).2 =
        (SchedulerPB.process x s).2 ++
          [(b, Callback.onPropose msgId did A.agentPublicKey_ target p)]) ∧
    (SchedulerPB.process x (A.sendAccept x s msgId did B target)).2 =
        (SchedulerPB.process x s).2 ++
          [(b, Callback.onAccept msgId did A.agentPublicKey_ target)] ∧
    (SchedulerPB.process x (A.sendDecline x s msgId did B target)).2 =
        (SchedulerPB.process x s).2 ++
          [(b, Callback.onDecline msgId did A.agentPublicKey_ target)] := by
  refine ⟨fun c => ?_, fun p => ?_, ?_, ?_⟩
  · rw [← decode_sendCFP x hx A B b msgId did target c]
    exact process_sendTo_serialize x s A.agentPublicKey_ B session b hB hb hrun _
  · rw [← decode_sendPropose x hx A B b msgId did target p]
    exact process_sendTo_serialize x s A.agentPublicKey_ B session b hB hb hrun _
  · rw [← decode_sendAccept x hx A B b msgId did target]
    exact process_sendTo_serialize x s A.agentPublicKey_ B session b hB hb hrun _
  · rw [← decode_sendDecline x hx A B b msgId did target]
    exact process_sendTo_serialize x s A.agentPublicKey_ B session b hB hb hrun _

/-- Witness for C6: the `sendPropose(2, 5, "Agent2", 1, Instances [])` of the local
transfer test arrives at agent object 2 as `onPropose` with the empty list. -/
theorem fipa_send_arrives_same_kind_witness :
    (SchedulerPB.process sampleExternals
        (sendPropose sampleExternals { agentPublicKey_ := "Agent1" } sampleScheduler 2 5
          "Agent2" 1 (ProposeType.Instances []))).2 =
      (SchedulerPB.process sampleExternals sampleScheduler).2 ++
        [(2, Callback.onPropose 2 5 "Agent1" 1 (ProposeType.Instances []))] :=
  (fipa_send_arrives_same_kind sampleExternals sampleExternals_roundTrip
      { agentPublicKey_ := "Agent1" } sampleScheduler "Agent2"
      { _agent := some 2, _description := none } 2 (by decide) rfl rfl 2 5 1).2.1
    (ProposeType.Instances [])

end OEFCoreLocalPB

namespace MessageDecoder

variable {QI QM Buffer : Type}

/-- C7: for a buffer that deserialises to the envelope `m`, `decode` invokes exactly
one callback on the target agent, chosen by the payload: `OEFError` gives
`onOEFError(m.answer_id, operation)`, `DialogueError` gives `onDialogueError(
m.answer_id, dialogue_id, origin)`, `Agents` gives `onSearchResult(m.answer_id, L)`
with `L` the agent list of the message, and `Content` with plain content gives
`onMessage(m.answer_id, dialogue_id, origin, content)`. -/
theorem decode_one_callback_by_payload (x : Externals QI QM Buffer) (key : String)
    (buffer : Buffer) (agent : AgentPtr) (m : pb.Server_AgentMessage QI QM)
    (hm : x.deserialize buffer = some m) :
    (∀ operation, m.payload = .kOefError operation →
      decode x key buffer agent = [(agent, Callback.onOEFError m.answer_id operation)]) ∧
    (∀ dialogue_id origin, m.payload = .kDialogueError dialogue_id origin →
      decode x key buffer agent =
        [(agent, Callback.onDialogueError m.answer_id dialogue_id origin)]) ∧
    (∀ agents, m.payload = .kAgents agents →
      decode x key buffer agent = [(agent, Callback.onSearchResult m.answer_id agents)]) ∧
    (∀ content c, m.payload = .kContent content → content.payload = .kContent c →
      decode x key buffer agent =
        [(agent, Callback.onMessage m.answer_id content.dialogue_id content.origin c)]) := by
  refine ⟨?_, ?_, ?_, ?_⟩
  · intro operation hp
    simp [decode, hm, hp]
  · intro dialogue_id origin hp
    simp [decode, hm, hp]
  · intro agents hp
    have hfold : agents.foldl (fun acc s => acc ++ [s]) [] = agents := by
      rw [foldl_append_singleton (fun s : String => s) agents []]
      simp
    simp [decode, hm, hp, hfold]
  · intro content c hp hc
    simp [decode, hm, hp, hc]

/-- Witness for C7: a search result with two keys, in order. -/
theorem decode_one_callback_by_payload_witness :
    decode sampleExternals "Agent1"
        (some { answer_id := 7, payload := .kAgents ["Agent3", "Agent2"] }) 1 =
      [(1, Callback.onSearchResult 7 ["Agent3", "Agent2"])] :=
  (decode_one_callback_by_payload sampleExternals "Agent1"
      (some { answer_id := 7, payload := .kAgents ["Agent3", "Agent2"] }) 1
      { answer_id := 7, payload := .kAgents ["Agent3", "Agent2"] } rfl).2.2.1
    ["Agent3", "Agent2"] rfl

/-- C8: for a `Content.Fipa` message whose `msg` is a `Cfp` with its payload set,
`decode` invokes exactly `onCFP(answer_id, dialogue_id, origin, target, constraints)`,
where a query payload gives `Query(QueryModel of that query)`, a content payload
gives `Bytes(content)` and a nothing payload gives `None`. -/
theorem decode_cfp_by_case (x : Externals QI QM Buffer) (key : String) (buffer : Buffer)
    (agent : AgentPtr) (m : pb.Server_AgentMessage QI QM)
    (content : pb.Server_AgentMessage_Content QI QM) (fipa : pb.Fipa_Message QI QM)
    (hm : x.deserialize buffer = some m) (hp : m.payload = .kContent content)
    (hc : content.payload = .kFipa fipa) :
    (∀ query, fipa.msg = .kCfp (.kQuery query) →
      decode x key buffer agent =
        [(agent, Callback.onCFP m.answer_id content.dialogue_id content.origin fipa.target
          (CFPType.Query (QueryModel.mk query)))]) ∧
    (∀ c, fipa.msg = .kCfp (.kContent c) →
      decode x key buffer agent =
        [(agent, Callback.onCFP m.answer_id content.dialogue_id content.origin fipa.target
          (CFPType.Bytes c))]) ∧
    (fipa.msg = .kCfp .kNothing →
      decode x key buffer agent =
        [(agent, Callback.onCFP m.answer_id content.dialogue_id content.origin fipa.target
          CFPType.None)]) := by
  refine ⟨?_, ?_, ?_⟩
  · intro query hf
    simp [decode, dispatch, hm, hp, hc, hf]
  · intro c hf
    simp [decode, dispatch, hm, hp, hc, hf]
  · intro hf
    simp [decode, dispatch, hm, hp, hc, hf]

/-- Witness for C8: a CFP of dialogue 4 from `Agent1` carrying the query 42. -/
theorem decode_cfp_by_case_witness :
    decode sampleExternals "Agent2"
        (some { answer_id := 1
                payload := .kContent
                  { dialogue_id := 4, origin := "Agent1"
                    payload := .kFipa { target := 0, msg := .kCfp (.kQuery 42) } } }) 2 =
      [(2, Callback.onCFP 1 4 "Agent1" 0 (CFPType.Query (QueryModel.mk 42)))] :=
  (decode_cfp_by_case sampleExternals "Agent2"
      (some { answer_id := 1
              payload := .kContent
                { dialogue_id := 4, origin := "Agent1"
                  payload := .kFipa { target := 0, msg := .kCfp (.kQuery 42) } } }) 2
      { answer_id := 1
        payload := .kContent
          { dialogue_id := 4, origin := "Agent1"
            payload := .kFipa { target := 0, msg := .kCfp (.kQuery 42) } } }
      { dialogue_id := 4, origin := "Agent1"
        payload := .kFipa { target := 0, msg := .kCfp (.kQuery 42) } }
      { target := 0, msg := .kCfp (.kQuery 42) } rfl rfl rfl).1 42 rfl

/-- C9: for a `Content.Fipa` message whose `msg` is a `Propose` with its payload set,
`decode` invokes exactly `onPropose(answer_id, dialogue_id, origin, target,
proposals)`, where a content payload gives `Bytes(content)` and a proposals payload
gives `Instances(list)` with one `Instance` per wire object, in the same order; the
empty object list gives `Instances` of the empty list. -/
theorem decode_propose_by_case (x : Externals QI QM Buffer) (key : String) (buffer : Buffer)
    (agent : AgentPtr) (m : pb.Server_AgentMessage QI QM)
    (content : pb.Server_AgentMessage_Content QI QM) (fipa : pb.Fipa_Message QI QM)
    (hm : x.deserialize buffer = some m) (hp : m.payload = .kContent content)
    (hc : content.payload = .kFipa fipa) :
    (∀ c, fipa.msg = .kPropose (.kContent c) →
      decode x key buffer agent =
        [(agent, Callback.onPropose m.answer_id content.dialogue_id content.origin fipa.target
          (ProposeType.Bytes c))]) ∧
    (∀ objects, fipa.msg = .kPropose (.kProposals objects) →
      decode x key buffer agent =
        [(agent, Callback.onPropose m.answer_id content.dialogue_id content.origin fipa.target
          (ProposeType.Instances (objects.map Instance.mk)))] ∧
      (objects.map (Instance.mk : QI → Instance QI)).length = objects.length ∧
      ∀ i (hi : i < objects.length),
        (objects.map (Instance.mk : QI → Instance QI))[i]? = some (Instance.mk objects[i])) ∧
    (fipa.msg = .kPropose (.kProposals []) →
      decode x key buffer agent =
        [(agent, Callback.onPropose m.answer_id content.dialogue_id content.origin fipa.target
          (ProposeType.Instances []))]) := by
  refine ⟨?_, ?_, ?_⟩
  · intro c hf
    simp [decode, dispatch, hm, hp, hc, hf]
  · intro objects hf
    refine ⟨?_, by simp, ?_⟩
    · simp [decode, dispatch, hm, hp, hc, hf, foldl_append_singleton]
    · intro i hi
      simp [hi]
  · intro hf
    simp [decode, dispatch, hm, hp, hc, hf]

/-- Witness for C9: a proposal of dialogue 5 from `Agent1` carrying two objects. -/
theorem decode_propose_by_case_witness :
    decode sampleExternals "Agent2"
        (some { answer_id := 2
                payload := .kContent
                  { dialogue_id := 5, origin := "Agent1"
                    payload := .kFipa { target := 1, msg := .kPropose (.kProposals [8, 3]) } } })
        2 =
      [(2, Callback.onPropose 2 5 "Agent1" 1
          (ProposeType.Instances ([8, 3].map Instance.mk)))] :=
  ((decode_propose_by_case sampleExternals "Agent2"
      (some { answer_id := 2
              payload := .kContent
                { dialogue_id := 5, origin := "Agent1"
                  payload := .kFipa { target := 1, msg := .kPropose (.kProposals [8, 3]) } } }) 2
      { answer_id := 2
        payload := .kContent
          { dialogue_id := 5, origin := "Agent1"
            payload := .kFipa { target := 1, msg := .kPropose (.kProposals [8, 3]) } } }
      { dialogue_id := 5, origin := "Agent1"
        payload := .kFipa { target := 1, msg := .kPropose (.kProposals [8, 3]) } }
      { target := 1, msg := .kPropose (.kProposals [8, 3]) } rfl rfl rfl).2.1 [8, 3] rfl).1

/-- C10: for a `Content.Fipa` message whose `msg` is `Accept` (respectively
`Decline`), `decode` invokes exactly `onAccept` (respectively `onDecline`) with the
`answer_id` of the envelope, the `dialogue_id` and `origin` of the content and the
`target` of the fipa message, and no other callback. -/
theorem decode_accept_decline (x : Externals QI QM Buffer) (key : String) (buffer : Buffer)
    (agent : AgentPtr) (m : pb.Server_AgentMessage QI QM)
    (content : pb.Server_AgentMessage_Content QI QM) (fipa : pb.Fipa_Message QI QM)
    (hm : x.deserialize buffer = some m) (hp : m.payload = .kContent content)
    (hc : content.payload = .kFipa fipa) :
    (fipa.msg = .kAccept →
      decode x key buffer agent =
        [(agent, Callback.onAccept m.answer_id content.dialogue_id content.origin
          fipa.target)]) ∧
    (fipa.msg = .kDecline →
      decode x key buffer agent =
        [(agent, Callback.onDecline m.answer_id content.dialogue_id content.origin
          fipa.target)]) := by
  refine ⟨?_, ?_⟩
  · intro hf
    simp [decode, dispatch, hm, hp, hc, hf]
  · intro hf
    simp [decode, dispatch, hm, hp, hc, hf]

/-- Witness for C10: the decline of dialogue 7 with target 3 from `Agent1`. -/
theorem decode_accept_decline_witness :
    decode sampleExternals "Agent3"
        (some { answer_id := 4
                payload := .kContent
                  { dialogue_id := 7, origin := "Agent1"
                    payload := .kFipa { target := 3, msg := .kDecline } } }) 3 =
      [(3, Callback.onDecline 4 7 "Agent1" 3)] :=
  (decode_accept_decline sampleExternals "Agent3"
      (some { answer_id := 4
              payload := .kContent
                { dialogue_id := 7, origin := "Agent1"
                  payload := .kFipa { target := 3, msg := .kDecline } } }) 3
      { answer_id := 4
        payload := .kContent
          { dialogue_id := 7, origin := "Agent1"
            payload := .kFipa { target := 3, msg := .kDecline } } }
      { dialogue_id := 7, origin := "Agent1"
        payload := .kFipa { target := 3, msg := .kDecline } }
      { target := 3, msg := .kDecline } rfl rfl rfl).2 rfl

end MessageDecoder

namespace MessageDecoder

variable {QI QM Buffer : Type}

/-- C11: `decode` invokes no callback, and returns, for a buffer that does not
deserialise and for a message whose envelope payload, content payload or fipa `msg`
is not set; a worker step that pops such a frame continues with the rest of the queue
and the same sessions. -/
theorem decode_drops_undecodable (x : Externals QI QM Buffer) (key : String) (buffer : Buffer)
    (agent : AgentPtr) :
    (x.deserialize buffer = none → decode x key buffer agent = []) ∧
    (∀ m, x.deserialize buffer = some m → m.payload = .PAYLOAD_NOT_SET →
      decode x key buffer agent = []) ∧
    (∀ m content, x.deserialize buffer = some m → m.payload = .kContent content →
      content.payload = .PAYLOAD_NOT_SET → decode x key buffer agent = []) ∧
    (∀ m content fipa, x.deserialize buffer = some m → m.payload = .kContent content →
      content.payload = .kFipa fipa → fipa.msg = .MSG_NOT_SET →
      decode x key buffer agent = []) ∧
    (∀ (s : SchedulerPB QI Buffer) (rest : List (String × Buffer)),
      (∀ a, decode x key buffer a = []) → s._stopping = false →
      s._queue = (key, buffer) :: rest →
      SchedulerPB.processStep x s = some ({ s with _queue := rest }, [])) := by
  refine ⟨?_, ?_, ?_, ?_, ?_⟩
  · intro hm
    simp [decode, hm]
  · intro m hm hp
    simp [decode, hm, hp]
  · intro m content hm hp hc
    simp [decode, hm, hp, hc]
  · intro m content fipa hm hp hc hf
    simp [decode, dispatch, hm, hp, hc, hf]
  · intro s rest hdec hrun hq
    have hdisp : SchedulerPB.dispatchFrame x s (key, buffer) = [] := by
      unfold SchedulerPB.dispatchFrame
      cases s._agents.lookup key with
      | none => rfl
      | some session =>
        cases hsa : session._agent with
        | none => simp [hsa]
        | some a => simp [hsa, hdec a]
    simp [SchedulerPB.processStep, hrun, hq, hdisp]

/-- Witness for C11: an undecodable buffer addressed to `Agent2` in the sample
scheduler is dropped by `decode`. -/
theorem decode_drops_undecodable_witness :
    decode sampleExternals "Agent2" none 2 = [] :=
  (decode_drops_undecodable sampleExternals "Agent2" none 2).1 rfl

/-- C12, the code at the failing input: a `Cfp` whose payload is not set still invokes
`onCFP`, with the default-constructed `CFPType` whatever that value is, and a
`Propose` whose payload is not set still invokes `onPropose` with the
default-constructed `ProposeType`; the frame is not dropped. -/
theorem decode_payload_not_set_invokes_callback :
    (∀ d : CFPType Nat,
      decode { sampleExternals with defaultCFPType := d } "Agent2"
          (some { answer_id := 1
                  payload := .kContent
                    { dialogue_id := 4, origin := "Agent1"
                      payload := .kFipa { target := 0, msg := .kCfp .PAYLOAD_NOT_SET } } }) 2 =
        [(2, Callback.onCFP 1 4 "Agent1" 0 d)]) ∧
    (∀ p : ProposeType Nat,
      decode { sampleExternals with defaultProposeType := p } "Agent2"
          (some { answer_id := 2
                  payload := .kContent
                    { dialogue_id := 5, origin := "Agent1"
                      payload := .kFipa { target := 1, msg := .kPropose .PAYLOAD_NOT_SET } } })
          2 =
        [(2, Callback.onPropose 2 5 "Agent1" 1 p)]) :=
  ⟨fun _ => rfl, fun _ => rfl⟩

end MessageDecoder

namespace Dialogues

variable {T : Type}

theorem lookup_eq_none_of_not_mem (r : Dialogues T) (id : Nat) (h : id ∉ r._dialogues) :
    r._dialogues.lookup id = none :=
  AList.lookup_eq_none.mpr h

theorem erase_of_not_mem (r : Dialogues T) (id : Nat) (h : id ∉ r._dialogues) :
    r.erase id = r := by
  obtain ⟨m⟩ := r
  have hk : id ∉ m.entries.keys := fun hmem => h (AList.mem_keys.mpr hmem)
  have he : AList.erase id m = m := AList.ext (List.kerase_of_not_mem_keys hk)
  simp [erase, he]

/-- C13, refuted as stated: the sample registry holds uuid 5; when the generator
yields 5 again, `create` returns a dialogue whose uuid was a key before the call, the
size does not grow and the entry held before is replaced. -/
theorem create_collision_overwrites :
    5 ∈ sampleDialogues._dialogues ∧
    (sampleDialogues.create 5 "peer").1.uuid = 5 ∧
    (sampleDialogues.create 5 "peer").2.size = sampleDialogues.size ∧
    (sampleDialogues.create 5 "peer").2._dialogues.lookup 5 ≠
      sampleDialogues._dialogues.lookup 5 := by
  decide

/-- C13, amended: for every registry, dest and generator value `u`, `create(dest)`
returns a dialogue with `msgId() == 0`, the given dest and uuid `u`; afterwards the
registry maps `u` to it and keeps every entry with another uuid; when `u` was not a
key before the call the size grows by exactly 1. -/
theorem create_fresh_dialogue [Inhabited T] (r : Dialogues T) (u : Nat) (dest : String) :
    (r.create u dest).1.msgId = 0 ∧
    (r.create u dest).1.dest = dest ∧
    (r.create u dest).1.uuid = u ∧
    (r.create u dest).2._dialogues.lookup u = some (some (r.create u dest).1) ∧
    (∀ j, j ≠ u → (r.create u dest).2._dialogues.lookup j = r._dialogues.lookup j) ∧
    (u ∉ r._dialogues → (r.create u dest).2.size = r.size + 1) := by
  refine ⟨rfl, rfl, rfl, ?_, ?_, ?_⟩
  · simp [create, Dialogue.uuid]
  · intro j hj
    simp [create, Dialogue.uuid, AList.lookup_insert_ne hj]
  · intro h
    show (AList.insert u _ r._dialogues).entries.length = r._dialogues.entries.length + 1
    rw [AList.insert_entries_of_neg h, List.length_cons]

/-- Witness for the amended C13: uuid 9 is new to the sample registry, whose size goes
from 1 to 2. -/
theorem create_fresh_dialogue_witness :
    (sampleDialogues.create 9 "peer").2.size = sampleDialogues.size + 1 :=
  (create_fresh_dialogue sampleDialogues 9 "peer").2.2.2.2.2 (by decide)

/-- C14: `get(u, d)` returns the dialogue stored for `u` and leaves the registry
unchanged when `u` has one (the argument `d` is ignored); when `u` has no entry it
inserts and returns a new dialogue with uuid `u`, dest `d` and msgId 0 and leaves
every other entry unchanged; a second call with the same arguments returns the same
dialogue and the same registry as the first. -/
theorem get2_get_or_create [Inhabited T] (r : Dialogues T) (u : Nat) (d : String) :
    (∀ dialogue, r._dialogues.lookup u = some (some dialogue) →
      r.get2 u d = (.ok dialogue, r)) ∧
    (u ∉ r._dialogues →
      (r.get2 u d).1 = .ok { _uuid := u, _dest := d, _msgId := 0, _state := default } ∧
      (r.get2 u d).2._dialogues.lookup u =
        some (some { _uuid := u, _dest := d, _msgId := 0, _state := default }) ∧
      (∀ j, j ≠ u → (r.get2 u d).2._dialogues.lookup j = r._dialogues.lookup j)) ∧
    ((r.get2 u d).2.get2 u d = r.get2 u d) := by
  refine ⟨?_, ?_, ?_⟩
  · intro dialogue h
    simp [get2, h]
  · intro h
    have hn := lookup_eq_none_of_not_mem r u h
    refine ⟨by simp [get2, hn], by simp [get2, hn], ?_⟩
    intro j hj
    simp [get2, hn, AList.lookup_insert_ne hj]
  · cases h : r._dialogues.lookup u with
    | none => simp [get2, h]
    | some handle =>
      cases handle with
      | none => simp [get2, h]
      | some dialogue => simp [get2, h]

/-- Witness for C14: uuid 5 is open in the sample registry, so `get(5, "other")`
returns the stored dialogue with `Agent2` and changes nothing. -/
theorem get2_get_or_create_witness :
    sampleDialogues.get2 5 "other" =
      (.ok { _uuid := 5, _dest := "Agent2", _msgId := 3, _state := 0 }, sampleDialogues) :=
  (get2_get_or_create sampleDialogues 5 "other").1
    { _uuid := 5, _dest := "Agent2", _msgId := 3, _state := 0 } (by decide)

/-- C15, refuted as stated: uuid 7 has no entry in the sample registry; `get(7)` ends
in the failed assertion, not in an error handed to the caller, and it has inserted an
entry for 7, so the registry grew. -/
theorem get1_absent_assertion_and_insert :
    7 ∉ sampleDialogues._dialogues ∧
    (sampleDialogues.get1 7).1 = .error Fault.assertionFailed ∧
    7 ∈ (sampleDialogues.get1 7).2._dialogues ∧
    (sampleDialogues.get1 7).2.size = sampleDialogues.size + 1 :=
  ⟨by decide, rfl, by decide, by decide⟩

/-- C15, amended: for an id without entry, `get(id)` returns no dialogue: its
assertion fails, and the entries of the other ids are as before; for an id whose
entry holds a dialogue it returns that dialogue and leaves the registry unchanged. -/
theorem get1_absent_asserts (r : Dialogues T) (id : Nat) :
    (id ∉ r._dialogues →
      (r.get1 id).1 = .error Fault.assertionFailed ∧
      (∀ j, j ≠ id → (r.get1 id).2._dialogues.lookup j = r._dialogues.lookup j)) ∧
    (∀ dialogue, r._dialogues.lookup id = some (some dialogue) →
      r.get1 id = (.ok dialogue, r)) := by
  refine ⟨?_, ?_⟩
  · intro h
    have hn := lookup_eq_none_of_not_mem r id h
    refine ⟨by simp [get1, hn], ?_⟩
    intro j hj
    simp [get1, hn, AList.lookup_insert_ne hj]
  · intro dialogue h
    simp [get1, h]

/-- Witness for the amended C15: `get(5)` on the sample registry returns the open
dialogue. -/
theorem get1_absent_asserts_witness :
    sampleDialogues.get1 5 =
      (.ok { _uuid := 5, _dest := "Agent2", _msgId := 3, _state := 0 }, sampleDialogues) :=
  (get1_absent_asserts sampleDialogues 5).2
    { _uuid := 5, _dest := "Agent2", _msgId := 3, _state := 0 } (by decide)

/-- C16: after `erase(id)`, and likewise after `setFinished()` on a dialogue whose
uuid is `id`, the registry has no entry for `id`, so `get(id)` on it returns no
dialogue, while every entry with another uuid is unchanged; `erase` of an id without
entry leaves the registry unchanged. -/
theorem erase_removes_only_id (r : Dialogues T) (id : Nat) :
    id ∉ (r.erase id)._dialogues ∧
    ((r.erase id).get1 id).1 = .error Fault.assertionFailed ∧
    (∀ j, j ≠ id → (r.erase id)._dialogues.lookup j = r._dialogues.lookup j) ∧
    (id ∉ r._dialogues → r.erase id = r) ∧
    (∀ d : Dialogue T, d.uuid = id → d.setFinished r = r.erase id) := by
  have hn : (r.erase id)._dialogues.lookup id = none := AList.lookup_erase id r._dialogues
  refine ⟨AList.lookup_eq_none.mp hn, by simp [get1, hn], ?_, erase_of_not_mem r id, ?_⟩
  · intro j hj
    exact AList.lookup_erase_ne hj
  · intro d hd
    simp [Dialogue.setFinished, hd]

/-- Witness for C16: uuid 7 has no entry in the sample registry, so erasing it changes
nothing. -/
theorem erase_removes_only_id_witness :
    sampleDialogues.erase 7 = sampleDialogues :=
  (erase_removes_only_id sampleDialogues 7).2.2.2.1 (by decide)

end Dialogues

namespace Dialogue

variable {T Buffer : Type}

/-- C17, refuted as stated: on a dialogue whose msgId is `2^32 - 1`,
`incrementMsgId` leaves msgId 0, which is smaller. -/
theorem incrementMsgId_not_monotone :
    sampleLastMsgId.msgId = 2 ^ 32 - 1 ∧
    sampleLastMsgId.incrementMsgId.msgId = 0 ∧
    ¬ (sampleLastMsgId.msgId ≤ sampleLastMsgId.incrementMsgId.msgId) := by
  decide

/-- C17, amended: `incrementMsgId` on a dialogue whose 32-bit msgId is `m` leaves
`(m + 1) mod 2^32`, which is `m + 1` for every `m < 2^32 - 1` and 0 for
`m = 2^32 - 1`; `setState` and `envelope` leave msgId (and for `envelope` the whole
dialogue) unchanged. -/
theorem incrementMsgId_wraps (d : Dialogue T) (h : d.msgId < 2 ^ 32) :
    d.incrementMsgId.msgId = (d.msgId + 1) % 2 ^ 32 ∧
    (d.msgId < 2 ^ 32 - 1 → d.incrementMsgId.msgId = d.msgId + 1) ∧
    (d.msgId = 2 ^ 32 - 1 → d.incrementMsgId.msgId = 0) ∧
    d.incrementMsgId.msgId < 2 ^ 32 ∧
    (∀ t : T, (d.setState t).msgId = d.msgId) ∧
    (∀ (serialize : pb.Envelope → Buffer) (outgoing : String),
      (d.envelope serialize outgoing).2 = d) := by
  have hinc : d.incrementMsgId.msgId = (d.msgId + 1) % 2 ^ 32 := rfl
  refine ⟨hinc, ?_, ?_, ?_, fun _ => rfl, fun _ _ => rfl⟩
  · intro hlt
    rw [hinc]
    exact Nat.mod_eq_of_lt (by omega)
  · intro heq
    rw [hinc, heq]
    norm_num
  · rw [hinc]
    exact Nat.mod_lt _ (by norm_num)

/-- Witness for the amended C17: the open dialogue of the sample registry, at msgId 3,
goes to msgId 4. -/
theorem incrementMsgId_wraps_witness :
    Dialogue.msgId (Dialogue.incrementMsgId
        ({ _uuid := 5, _dest := "Agent2", _msgId := 3, _state := 0 } : Dialogue Nat)) =
      Dialogue.msgId
        ({ _uuid := 5, _dest := "Agent2", _msgId := 3, _state := 0 } : Dialogue Nat) + 1 :=
  (@incrementMsgId_wraps Nat Unit
      ({ _uuid := 5, _dest := "Agent2", _msgId := 3, _state := 0 } : Dialogue Nat)
      (by decide)).2.1 (by decide)

end Dialogue

/-! ### Lookup after an in-place replacement, and the search as a filter -/

theorem kreplace_cons_eq {α : Type} {β : α → Type} [DecidableEq α] (a : α) (b b1 : β a)
    (t : List (Sigma β)) : List.kreplace a b (⟨a, b1⟩ :: t) = ⟨a, b⟩ :: t :=
  List.lookmap_cons_some _ _ (by simp)

theorem kreplace_cons_ne {α : Type} {β : α → Type} [DecidableEq α] (a : α) (b : β a)
    (hd : Sigma β) (t : List (Sigma β)) (h : a ≠ hd.1) :
    List.kreplace a b (hd :: t) = hd :: List.kreplace a b t :=
  List.lookmap_cons_none _ _ (by simp [h])

theorem dlookup_kreplace_ne {α : Type} {β : α → Type} [DecidableEq α] (a j : α) (b : β a)
    (l : List (Sigma β)) (h : j ≠ a) :
    List.dlookup j (List.kreplace a b l) = List.dlookup j l := by
  induction l with
  | nil => rfl
  | cons hd t ih =>
    obtain ⟨a1, b1⟩ := hd
    by_cases h1 : a = a1
    · subst h1
      rw [kreplace_cons_eq, List.dlookup_cons_ne _ _ h, List.dlookup_cons_ne _ _ h]
    · rw [kreplace_cons_ne a b _ t h1]
      by_cases h2 : j = a1
      · subst h2
        rw [List.dlookup_cons_eq, List.dlookup_cons_eq]
      · rw [List.dlookup_cons_ne _ _ h2, List.dlookup_cons_ne _ _ h2, ih]

theorem dlookup_kreplace_self {α : Type} {β : α → Type} [DecidableEq α] (a : α) (b : β a)
    (l : List (Sigma β)) (h : a ∈ l.keys) :
    List.dlookup a (List.kreplace a b l) = some b := by
  induction l with
  | nil => simp at h
  | cons hd t ih =>
    obtain ⟨a1, b1⟩ := hd
    by_cases h1 : a = a1
    · subst h1
      rw [kreplace_cons_eq, List.dlookup_cons_eq]
    · rw [kreplace_cons_ne a b _ t h1, List.dlookup_cons_ne _ _ h1]
      apply ih
      simpa [List.keys, h1] using h

theorem foldl_filter_append {α β : Type} (p : α → Bool) (f : α → β) (l : List α)
    (init : List β) :
    l.foldl (fun res e => if p e then res ++ [f e] else res) init =
      init ++ (l.filter p).map f := by
  induction l generalizing init with
  | nil => simp
  | cons a l ih =>
    by_cases h : p a <;> simp [List.foldl_cons, ih, h]

namespace SchedulerPB

variable {QI QM Buffer : Type}

theorem lookup_replace_self (m : AList (fun _ : String => LocalAgentSession QI)) (k : String)
    (b : LocalAgentSession QI) (h : k ∈ m) : (m.replace k b).lookup k = some b :=
  @dlookup_kreplace_self String (fun _ => LocalAgentSession QI) _ k b m.entries
    (AList.mem_keys.mp h)

theorem lookup_replace_ne (m : AList (fun _ : String => LocalAgentSession QI)) (k j : String)
    (b : LocalAgentSession QI) (h : j ≠ k) : (m.replace k b).lookup j = m.lookup j :=
  @dlookup_kreplace_ne String (fun _ => LocalAgentSession QI) _ k j b m.entries h

theorem searchAgents_eq_filter (check : QueryModel QM → Instance QI → Bool)
    (s : SchedulerPB QI Buffer) (id : Nat) (model : QueryModel QM) :
    s.searchAgents check id model =
      (s._agents.entries.filter (fun e => e.2.match_ check model)).map Sigma.fst := by
  simp [searchAgents, foldl_filter_append]

theorem mem_searchAgents_iff (check : QueryModel QM → Instance QI → Bool)
    (s : SchedulerPB QI Buffer) (id : Nat) (model : QueryModel QM) (k : String) :
    k ∈ s.searchAgents check id model ↔
      ∃ session, s._agents.lookup k = some session ∧ session.match_ check model = true := by
  rw [searchAgents_eq_filter, List.mem_map]
  constructor
  · rintro ⟨⟨k1, session⟩, he, hk⟩
    rw [List.mem_filter] at he
    have hk1 : k1 = k := hk
    subst hk1
    exact ⟨session, Option.mem_def.mp (AList.mem_lookup_iff.mpr he.1), he.2⟩
  · rintro ⟨session, hl, hm⟩
    refine ⟨⟨k, session⟩, List.mem_filter.mpr ⟨?_, hm⟩, rfl⟩
    exact AList.mem_lookup_iff.mp (Option.mem_def.mpr hl)

theorem match_eq_true_iff (check : QueryModel QM → Instance QI → Bool)
    (session : LocalAgentSession QI) (model : QueryModel QM) :
    session.match_ check model = true ↔
      ∃ d, session._description = some d ∧ check model d = true := by
  unfold LocalAgentSession.match_
  cases session._description <;> simp

/-- C18: a key `k` occurs in `searchAgents(_, model)` exactly when `k` has a session,
the session has a description `d` and `model.check(d)` holds; each key occurs at most
once, and the key of a session without a description never occurs. The member is
const: its only result is the list. -/
theorem searchAgents_exactly_matching (check : QueryModel QM → Instance QI → Bool)
    (s : SchedulerPB QI Buffer) (id : Nat) (model : QueryModel QM) :
    (∀ k, k ∈ s.searchAgents check id model ↔
      ∃ session d, s._agents.lookup k = some session ∧ session._description = some d ∧
        check model d = true) ∧
    (s.searchAgents check id model).Nodup ∧
    (∀ k session, s._agents.lookup k = some session → session._description = none →
      k ∉ s.searchAgents check id model) := by
  refine ⟨?_, ?_, ?_⟩
  · intro k
    rw [mem_searchAgents_iff]
    constructor
    · rintro ⟨session, hl, hm⟩
      obtain ⟨d, hd, hc⟩ := (match_eq_true_iff check session model).mp hm
      exact ⟨session, d, hl, hd, hc⟩
    · rintro ⟨session, d, hl, hd, hc⟩
      exact ⟨session, hl, (match_eq_true_iff check session model).mpr ⟨d, hd, hc⟩⟩
  · rw [searchAgents_eq_filter]
    exact List.Nodup.sublist (List.Sublist.map _ (List.filter_sublist _)) s._agents.keys_nodup
  · intro k session hl hd hmem
    obtain ⟨session1, hl1, hm⟩ := (mem_searchAgents_iff check s id model k).mp hmem
    rw [hl] at hl1
    obtain ⟨d, hd1, _⟩ := (match_eq_true_iff check session1 model).mp hm
    rw [← Option.some.inj hl1, hd] at hd1
    exact Option.noConfusion hd1

/-- Witness for C18: in the sample scheduler `Agent2` has a session without a
description, so it is in no search result. -/
theorem searchAgents_exactly_matching_witness :
    "Agent2" ∉ sampleScheduler.searchAgents (fun (_ : QueryModel Nat) (_ : Instance Nat) => true)
      1 (QueryModel.mk 0) :=
  (searchAgents_exactly_matching (fun (_ : QueryModel Nat) (_ : Instance Nat) => true)
      sampleScheduler 1 (QueryModel.mk 0)).2.2 "Agent2"
    { _agent := some 2, _description := none } (by decide) rfl

end SchedulerPB

namespace SchedulerPB

variable {QI QM Buffer : Type}

theorem registerDescription_of_lookup (s : SchedulerPB QI Buffer) (k : String)
    (inst : Instance QI) (session : LocalAgentSession QI)
    (h : s._agents.lookup k = some session) :
    s.registerDescription k inst =
      { s with _agents := s._agents.replace k { session with _description := some inst } } := by
  simp [registerDescription, h]

theorem unregisterDescription_of_lookup (s : SchedulerPB QI Buffer) (k : String)
    (session : LocalAgentSession QI) (h : s._agents.lookup k = some session) :
    s.unregisterDescription k =
      { s with _agents := s._agents.replace k { session with _description := none } } := by
  simp [unregisterDescription, h]

theorem registerDescription_mem (s : SchedulerPB QI Buffer) (k : String) (inst : Instance QI)
    (h : k ∈ s._agents) : k ∈ (s.registerDescription k inst)._agents := by
  obtain ⟨session, hs⟩ := exists_lookup_of_mem s k h
  rw [registerDescription_of_lookup s k inst session hs]
  exact AList.mem_replace.mpr h

theorem mem_searchAgents_registerDescription (check : QueryModel QM → Instance QI → Bool)
    (s : SchedulerPB QI Buffer) (k : String) (h : k ∈ s._agents) (inst : Instance QI)
    (id : Nat) (model : QueryModel QM) :
    k ∈ (s.registerDescription k inst).searchAgents check id model ↔
      check model inst = true := by
  obtain ⟨session, hs⟩ := exists_lookup_of_mem s k h
  rw [mem_searchAgents_iff, registerDescription_of_lookup s k inst session hs]
  have hl : (s._agents.replace k { session with _description := some inst }).lookup k =
      some { session with _description := some inst } := lookup_replace_self _ k _ h
  constructor
  · rintro ⟨session1, hl1, hm⟩
    have hl2 : (s._agents.replace k { session with _description := some inst }).lookup k =
        some session1 := hl1
    rw [hl] at hl2
    rw [← Option.some.inj hl2] at hm
    simpa [LocalAgentSession.match_] using hm
  · intro hc
    exact ⟨_, hl, by simpa [LocalAgentSession.match_] using hc⟩

/-- C19: for a connected key `k`, after `registerDescription(k, inst)` the result of
`searchAgents(model)` contains `k` exactly when `model.check(inst)` holds, a later
`registerDescription` replaces the earlier description, and after
`unregisterDescription(k)` no `searchAgents` result contains `k`; both operations
leave every other session unchanged, and on a key without a session they leave the
whole scheduler unchanged. -/
theorem description_decides_searchAgents (check : QueryModel QM → Instance QI → Bool)
    (s : SchedulerPB QI Buffer) (k : String) (inst : Instance QI) (id : Nat)
    (model : QueryModel QM) :
    (k ∈ s._agents →
      (k ∈ (s.registerDescription k inst).searchAgents check id model ↔
        check model inst = true) ∧
      (∀ inst2 : Instance QI,
        k ∈ ((s.registerDescription k inst).registerDescription k inst2).searchAgents
            check id model ↔ check model inst2 = true) ∧
      k ∉ (s.unregisterDescription k).searchAgents check id model ∧
      k ∉ ((s.registerDescription k inst).unregisterDescription k).searchAgents
            check id model) ∧
    (∀ j, j ≠ k →
      (s.registerDescription k inst)._agents.lookup j = s._agents.lookup j ∧
      (s.unregisterDescription k)._agents.lookup j = s._agents.lookup j) ∧
    (k ∉ s._agents → s.registerDescription k inst = s ∧ s.unregisterDescription k = s) := by
  have hunreg : ∀ t : SchedulerPB QI Buffer, k ∈ t._agents →
      k ∉ (t.unregisterDescription k).searchAgents check id model := by
    intro t ht hmem
    obtain ⟨session, hs⟩ := exists_lookup_of_mem t k ht
    rw [mem_searchAgents_iff, unregisterDescription_of_lookup t k session hs] at hmem
    obtain ⟨session1, hl1, hm⟩ := hmem
    have hl : (t._agents.replace k { session with _description := none }).lookup k =
        some { session with _description := none } := lookup_replace_self _ k _ ht
    have hl2 : (t._agents.replace k { session with _description := none }).lookup k =
        some session1 := hl1
    rw [hl] at hl2
    rw [← Option.some.inj hl2] at hm
    simp [LocalAgentSession.match_] at hm
  refine ⟨fun h => ⟨?_, ?_, ?_, ?_⟩, ?_, ?_⟩
  · exact mem_searchAgents_registerDescription check s k h inst id model
  · intro inst2
    exact mem_searchAgents_registerDescription check _ k (registerDescription_mem s k inst h)
      inst2 id model
  · exact hunreg s h
  · exact hunreg _ (registerDescription_mem s k inst h)
  · intro j hj
    cases hs : s._agents.lookup k with
    | none => simp [registerDescription, unregisterDescription, hs]
    | some session =>
      rw [registerDescription_of_lookup s k inst session hs,
        unregisterDescription_of_lookup s k session hs]
      exact ⟨lookup_replace_ne _ k j _ hj, lookup_replace_ne _ k j _ hj⟩
  · intro h
    have hn : s._agents.lookup k = none := (lookup_eq_none_iff s k).mpr h
    simp [registerDescription, unregisterDescription, hn]

/-- Witness for C19: `Agent2` is connected in the sample scheduler; once it has
registered the description 7 it is found by a query that accepts exactly 7. -/
theorem description_decides_searchAgents_witness :
    "Agent2" ∈ (sampleScheduler.registerDescription "Agent2" (Instance.mk 7)).searchAgents
        (fun (q : QueryModel Nat) (i : Instance Nat) => decide (q.handle = i.handle)) 1
        (QueryModel.mk 7) :=
  (((description_decides_searchAgents
      (fun (q : QueryModel Nat) (i : Instance Nat) => decide (q.handle = i.handle))
      sampleScheduler "Agent2" (Instance.mk 7) 1 (QueryModel.mk 7)).1 (by decide)).1).mpr
    (by decide)

end SchedulerPB

/-! ### The service directory -/

theorem mem_foldl_insert_new (l r : List String) (x : String) :
    x ∈ l.foldl (fun r a => if a ∈ r then r else r ++ [a]) r ↔ x ∈ r ∨ x ∈ l := by
  induction l generalizing r with
  | nil => simp
  | cons a l ih =>
    rw [List.foldl_cons, ih]
    by_cases h : a ∈ r
    · simp only [h, if_true, List.mem_cons]
      constructor
      · rintro (hx | hx)
        · exact Or.inl hx
        · exact Or.inr (Or.inr hx)
      · rintro (hx | hx | hx)
        · exact Or.inl hx
        · exact Or.inl (hx ▸ h)
        · exact Or.inr hx
    · simp only [h, if_false, List.mem_append, List.mem_singleton, List.mem_cons]
      tauto

theorem nodup_foldl_insert_new (l r : List String) (h : r.Nodup) :
    (l.foldl (fun r a => if a ∈ r then r else r ++ [a]) r).Nodup := by
  induction l generalizing r with
  | nil => simpa using h
  | cons a l ih =>
    rw [List.foldl_cons]
    apply ih
    by_cases ha : a ∈ r
    · simpa [ha] using h
    · simp only [ha, if_false]
      exact List.Nodup.append h (List.nodup_singleton a) (by simpa using ha)

namespace ServiceDirectory

variable {QI QM : Type}

theorem query_aux (check : QueryModel QM → Instance QI → Bool) (model : QueryModel QM)
    (l : List (Instance QI × List String)) (r : List String) :
    (∀ x, x ∈ l.foldl (fun res e =>
        if check model e.1 then e.2.foldl (fun r a => if a ∈ r then r else r ++ [a]) res
        else res) r ↔ x ∈ r ∨ ∃ e ∈ l, check model e.1 = true ∧ x ∈ e.2) ∧
    (r.Nodup → (l.foldl (fun res e =>
        if check model e.1 then e.2.foldl (fun r a => if a ∈ r then r else r ++ [a]) res
        else res) r).Nodup) := by
  induction l generalizing r with
  | nil => simp
  | cons e l ih =>
    rw [List.foldl_cons]
    by_cases hc : check model e.1 = true
    · rw [if_pos hc]
      refine ⟨fun x => ?_, fun hr => ?_⟩
      · rw [(ih _).1 x, mem_foldl_insert_new]
        simp only [List.mem_cons, exists_eq_or_imp, hc, true_and]
        tauto
      · exact (ih _).2 (nodup_foldl_insert_new e.2 r hr)
    · rw [if_neg hc]
      refine ⟨fun x => ?_, fun hr => (ih r).2 hr⟩
      rw [(ih r).1 x]
      simp only [List.mem_cons, exists_eq_or_imp, hc, false_and, false_or, Bool.false_eq_true]

theorem mem_query_iff (check : QueryModel QM → Instance QI → Bool) (sd : ServiceDirectory QI)
    (model : QueryModel QM) (x : String) :
    x ∈ sd.query check model ↔ ∃ inst, check model inst = true ∧ sd.Advertises inst x := by
  unfold query
  rw [(query_aux check model sd.entries []).1 x]
  constructor
  · rintro (h | ⟨e, he, hc, hx⟩)
    · simp at h
    · exact ⟨e.1, hc, e, he, rfl, hx⟩
  · rintro ⟨inst, hc, e, he, hi, hx⟩
    exact Or.inr ⟨e, he, hi ▸ hc, hx⟩

theorem nodup_query (check : QueryModel QM → Instance QI → Bool) (sd : ServiceDirectory QI)
    (model : QueryModel QM) : (sd.query check model).Nodup :=
  (query_aux check model sd.entries []).2 List.nodup_nil

theorem registerAgent_entries_of_any [DecidableEq QI] (sd : ServiceDirectory QI)
    (inst : Instance QI) (agent : String)
    (h : sd.entries.any (fun e => decide (e.1 = inst)) = true) :
    (sd.registerAgent inst agent).entries =
      sd.entries.map (fun e =>
        if e.1 = inst then (e.1, if agent ∈ e.2 then e.2 else e.2 ++ [agent]) else e) := by
  unfold registerAgent
  rw [if_pos h]

theorem registerAgent_entries_of_not_any [DecidableEq QI] (sd : ServiceDirectory QI)
    (inst : Instance QI) (agent : String)
    (h : ¬ sd.entries.any (fun e => decide (e.1 = inst)) = true) :
    (sd.registerAgent inst agent).entries = sd.entries ++ [(inst, [agent])] := by
  unfold registerAgent
  rw [if_neg h]

theorem advertises_registerAgent [DecidableEq QI] (sd : ServiceDirectory QI)
    (inst i : Instance QI) (agent x : String) :
    (sd.registerAgent inst agent).Advertises i x ↔
      sd.Advertises i x ∨ (i = inst ∧ x = agent) := by
  unfold Advertises
  by_cases hany : sd.entries.any (fun e => decide (e.1 = inst)) = true
  · rw [registerAgent_entries_of_any sd inst agent hany]
    obtain ⟨e1, he1, hi1⟩ := List.any_eq_true.mp hany
    have hi1 : e1.1 = inst := of_decide_eq_true hi1
    constructor
    · rintro ⟨e, he, hi, hx⟩
      obtain ⟨e0, he0, hf⟩ := List.mem_map.mp he
      subst hf
      by_cases h0 : e0.1 = inst
      · rw [if_pos h0] at hi hx
        have hi0 : e0.1 = i := hi
        by_cases hk : agent ∈ e0.2
        · have hx0 : x ∈ e0.2 := by simpa [hk] using hx
          exact Or.inl ⟨e0, he0, hi0, hx0⟩
        · have hx0 : x ∈ e0.2 ∨ x = agent := by simpa [hk] using hx
          rcases hx0 with hx0 | hx0
          · exact Or.inl ⟨e0, he0, hi0, hx0⟩
          · exact Or.inr ⟨hi0.symm.trans h0, hx0⟩
      · rw [if_neg h0] at hi hx
        exact Or.inl ⟨e0, he0, hi, hx⟩
    · rintro (⟨e0, he0, hi, hx⟩ | ⟨hi, hx⟩)
      · refine ⟨_, List.mem_map.mpr ⟨e0, he0, rfl⟩, ?_, ?_⟩
        · split <;> exact hi
        · by_cases h0 : e0.1 = inst
          · rw [if_pos h0]
            by_cases hk : agent ∈ e0.2 <;> simp [hk, hx]
          · rw [if_neg h0]
            exact hx
      · refine ⟨_, List.mem_map.mpr ⟨e1, he1, rfl⟩, ?_, ?_⟩
        · rw [if_pos hi1]
          exact hi1.trans hi.symm
        · rw [if_pos hi1]
          by_cases hk : agent ∈ e1.2 <;> simp [hk, hx]
  · rw [registerAgent_entries_of_not_any sd inst agent hany]
    constructor
    · rintro ⟨e, he, hi, hx⟩
      rcases List.mem_append.mp he with he | he
      · exact Or.inl ⟨e, he, hi, hx⟩
      · have he1 : e = (inst, [agent]) := List.mem_singleton.mp he
        subst he1
        exact Or.inr ⟨hi.symm, List.mem_singleton.mp hx⟩
    · rintro (⟨e, he, hi, hx⟩ | ⟨hi, hx⟩)
      · exact ⟨e, List.mem_append.mpr (Or.inl he), hi, hx⟩
      · exact ⟨(inst, [agent]), List.mem_append.mpr (Or.inr (List.mem_singleton.mpr rfl)),
          hi.symm, List.mem_singleton.mpr hx⟩

theorem not_advertises_of_empty (sd : ServiceDirectory QI) (h : sd.entries = [])
    (i : Instance QI) (x : String) : ¬ sd.Advertises i x := by
  rintro ⟨e, he, _⟩
  rw [h] at he
  simp at he

end ServiceDirectory

namespace SchedulerPB

variable {QI QM Buffer : Type}

theorem mem_searchServices_registerService [DecidableEq QI]
    (check : QueryModel QM → Instance QI → Bool) (s : SchedulerPB QI Buffer) (k : String)
    (inst : Instance QI) (id : Nat) (model : QueryModel QM) (a : String) :
    a ∈ (s.registerService k inst).searchServices check id model ↔
      a ∈ s.searchServices check id model ∨ (check model inst = true ∧ a = k) := by
  unfold searchServices registerService
  rw [ServiceDirectory.mem_query_iff, ServiceDirectory.mem_query_iff]
  constructor
  · rintro ⟨i, hc, hadv⟩
    rcases (ServiceDirectory.advertises_registerAgent s._sd inst i k a).mp hadv with h | ⟨hi, ha⟩
    · exact Or.inl ⟨i, hc, h⟩
    · exact Or.inr ⟨hi ▸ hc, ha⟩
  · rintro (⟨i, hc, hadv⟩ | ⟨hc, ha⟩)
    · exact ⟨i, hc, (ServiceDirectory.advertises_registerAgent s._sd inst i k a).mpr (Or.inl hadv)⟩
    · exact ⟨inst, hc,
        (ServiceDirectory.advertises_registerAgent s._sd inst inst k a).mpr (Or.inr ⟨rfl, ha⟩)⟩

theorem not_mem_searchServices_of_empty (check : QueryModel QM → Instance QI → Bool)
    (s : SchedulerPB QI Buffer) (hs : s._sd.entries = []) (id : Nat) (model : QueryModel QM)
    (a : String) : a ∉ s.searchServices check id model := by
  unfold searchServices
  rw [ServiceDirectory.mem_query_iff]
  rintro ⟨i, _, hadv⟩
  exact ServiceDirectory.not_advertises_of_empty s._sd hs i a hadv

/-- C20: starting from an empty service directory, after `registerService(k, inst)`
then `registerService(k', inst')` with a model matching both instances,
`searchServices(model)` contains exactly the keys `k` and `k'`, without duplicates;
and after three agents register `I1`, `I2`, `I1`, a query that matches `I1` and not
`I2` returns exactly the first and the third agent. -/
theorem searchServices_after_registrations [DecidableEq QI]
    (check : QueryModel QM → Instance QI → Bool) (s : SchedulerPB QI Buffer)
    (hs : s._sd.entries = []) (id : Nat) (model : QueryModel QM) :
    (∀ (k k' : String) (inst inst' : Instance QI),
      check model inst = true → check model inst' = true →
      (∀ a, a ∈ ((s.registerService k inst).registerService k' inst').searchServices
          check id model ↔ a = k ∨ a = k') ∧
      (((s.registerService k inst).registerService k' inst').searchServices
          check id model).Nodup) ∧
    (∀ (a0 a1 a2 : String) (I1 I2 : Instance QI),
      check model I1 = true → check model I2 = false →
      (∀ a, a ∈ (((s.registerService a0 I1).registerService a1 I2).registerService a2
          I1).searchServices check id model ↔ a = a0 ∨ a = a2) ∧
      ((((s.registerService a0 I1).registerService a1 I2).registerService a2
          I1).searchServices check id model).Nodup) := by
  have hempty := not_mem_searchServices_of_empty check s hs id model
  refine ⟨?_, ?_⟩
  · intro k k' inst inst' h1 h2
    refine ⟨fun a => ?_, ServiceDirectory.nodup_query check _ model⟩
    rw [mem_searchServices_registerService, mem_searchServices_registerService]
    have := hempty a
    simp only [h1, h2, true_and]
    tauto
  · intro a0 a1 a2 I1 I2 h1 h2
    refine ⟨fun a => ?_, ServiceDirectory.nodup_query check _ model⟩
    rw [mem_searchServices_registerService, mem_searchServices_registerService,
      mem_searchServices_registerService]
    have := hempty a
    simp only [h1, h2, true_and, Bool.false_eq_true, false_and, or_false]
    tauto

/-- Witness for C20: the three agents of the sample scheduler register the services
1, 2, 1; the query for 1 returns `Agent3` (and `Agent1`) but not `Agent2`. -/
theorem searchServices_after_registrations_witness :
    "Agent3" ∈ (((sampleScheduler.registerService "Agent1" (Instance.mk 1)).registerService
        "Agent2" (Instance.mk 2)).registerService "Agent3" (Instance.mk 1)).searchServices
        (fun (q : QueryModel Nat) (i : Instance Nat) => decide (q.handle = i.handle)) 1
        (QueryModel.mk 1) ∧
    "Agent2" ∉ (((sampleScheduler.registerService "Agent1" (Instance.mk 1)).registerService
        "Agent2" (Instance.mk 2)).registerService "Agent3" (Instance.mk 1)).searchServices
        (fun (q : QueryModel Nat) (i : Instance Nat) => decide (q.handle = i.handle)) 1
        (QueryModel.mk 1) :=
  ⟨(((searchServices_after_registrations
      (fun (q : QueryModel Nat) (i : Instance Nat) => decide (q.handle = i.handle))
      sampleScheduler rfl 1 (QueryModel.mk 1)).2 "Agent1" "Agent2" "Agent3" (Instance.mk 1)
      (Instance.mk 2) (by decide) (by decide)).1 "Agent3").mpr (Or.inr rfl),
   fun h => absurd
    ((((searchServices_after_registrations
      (fun (q : QueryModel Nat) (i : Instance Nat) => decide (q.handle = i.handle))
      sampleScheduler rfl 1 (QueryModel.mk 1)).2 "Agent1" "Agent2" "Agent3" (Instance.mk 1)
      (Instance.mk 2) (by decide) (by decide)).1 "Agent2").mp h) (by decide)⟩

end SchedulerPB

/-! ### Search replies, disconnect, the worker step and shutdown -/

theorem foldl_append_singleton_id (l : List String) :
    l.foldl (fun agents a => agents ++ [a]) [] = l := by
  rw [foldl_append_singleton (fun a : String => a) l []]
  simp

namespace MessageDecoder

variable {QI QM Buffer : Type}

theorem decode_agents_answer (x : Externals QI QM Buffer) (hx : x.RoundTrip) (key : String)
    (agent : AgentPtr) (search_id : Nat) (keys : List String) :
    decode x key
        (x.serialize { answer_id := search_id
                       payload := .kAgents (keys.foldl (fun agents a => agents ++ [a]) []) })
        agent =
      [(agent, Callback.onSearchResult search_id keys)] := by
  simp [decode, hx _, foldl_append_singleton_id]

theorem decode_on_agent (x : Externals QI QM Buffer) (key : String) (buffer : Buffer)
    (agent : AgentPtr) : ∀ e ∈ decode x key buffer agent, e.1 = agent := by
  intro e he
  unfold decode at he
  cases hm : x.deserialize buffer with
  | none => simp [hm] at he
  | some m =>
    simp only [hm] at he
    cases hp : m.payload with
    | kOefError operation => simp [hp] at he; simp [he]
    | kDialogueError dialogue_id origin => simp [hp] at he; simp [he]
    | kAgents agents => simp [hp] at he; simp [he]
    | PAYLOAD_NOT_SET => simp [hp] at he
    | kContent content =>
      simp only [hp] at he
      cases hc : content.payload with
      | kContent c => simp [hc] at he; simp [he]
      | PAYLOAD_NOT_SET => simp [hc] at he
      | kFipa fipa =>
        simp only [hc] at he
        unfold dispatch at he
        cases hf : fipa.msg with
        | kCfp cfp => simp [hf] at he; simp [he]
        | kPropose propose => simp [hf] at he; simp [he]
        | kAccept => simp [hf] at he; simp [he]
        | kDecline => simp [hf] at he; simp [he]
        | MSG_NOT_SET => simp [hf] at he

end MessageDecoder

namespace OEFCoreLocalPB

variable {QI QM Buffer : Type}

/-- C21: for a local proxy with key `A` that is connected and bound to the agent
object `a`, `searchAgents(search_id, model)` (respectively `searchServices`) enqueues
exactly one frame, addressed to `A` itself, and leaves the sessions alone;
dispatching the frame invokes exactly `a.onSearchResult(search_id, L)` with `L` the
list `SchedulerPB::searchAgents` (respectively `searchServices`) returns at the time
of the call, the empty list included. -/
theorem search_reply_to_self (x : Externals QI QM Buffer) (hx : x.RoundTrip)
    (check : QueryModel QM → Instance QI → Bool) (A : OEFCoreLocalPB)
    (s : SchedulerPB QI Buffer) (session : LocalAgentSession QI) (a : AgentPtr)
    (hA : s._agents.lookup A.agentPublicKey_ = some session) (ha : session._agent = some a)
    (search_id : Nat) (model : QueryModel QM) :
    (∃ buffer,
      (A.searchAgents x check s search_id model)._queue =
          s._queue ++ [(A.agentPublicKey_, buffer)] ∧
      (A.searchAgents x check s search_id model)._agents = s._agents ∧
      SchedulerPB.dispatchFrame x (A.searchAgents x check s search_id model)
          (A.agentPublicKey_, buffer) =
        [(a, Callback.onSearchResult search_id (s.searchAgents check search_id model))]) ∧
    (∃ buffer,
      (A.searchServices x check s search_id model)._queue =
          s._queue ++ [(A.agentPublicKey_, buffer)] ∧
      (A.searchServices x check s search_id model)._agents = s._agents ∧
      SchedulerPB.dispatchFrame x (A.searchServices x check s search_id model)
          (A.agentPublicKey_, buffer) =
        [(a, Callback.onSearchResult search_id (s.searchServices check search_id model))]) := by
  refine ⟨⟨_, rfl, rfl, ?_⟩, ⟨_, rfl, rfl, ?_⟩⟩
  · rw [SchedulerPB.dispatchFrame_congr x (A.searchAgents x check s search_id model) s rfl,
      SchedulerPB.dispatchFrame_serialize x s A.agentPublicKey_ session a hA ha]
    exact MessageDecoder.decode_agents_answer x hx _ a search_id _
  · rw [SchedulerPB.dispatchFrame_congr x (A.searchServices x check s search_id model) s rfl,
      SchedulerPB.dispatchFrame_serialize x s A.agentPublicKey_ session a hA ha]
    exact MessageDecoder.decode_agents_answer x hx _ a search_id _

/-- Witness for C21: `Agent2` has registered the description 7 in the sample
scheduler; the search of `Agent1` for 7 comes back to agent object 1 with `Agent2`. -/
theorem search_reply_to_self_witness :
    (SchedulerPB.process sampleExternals
        (searchAgents sampleExternals
          (fun (q : QueryModel Nat) (i : Instance Nat) => decide (q.handle = i.handle))
          { agentPublicKey_ := "Agent1" }
          (sampleScheduler.registerDescription "Agent2" (Instance.mk 7)) 3
          (QueryModel.mk 7))).2 =
      [(1, Callback.onSearchResult 3 ["Agent2"])] ∧
    (∃ buffer,
      (searchAgents sampleExternals
          (fun (q : QueryModel Nat) (i : Instance Nat) => decide (q.handle = i.handle))
          { agentPublicKey_ := "Agent1" }
          (sampleScheduler.registerDescription "Agent2" (Instance.mk 7)) 3
          (QueryModel.mk 7))._queue =
        (sampleScheduler.registerDescription "Agent2" (Instance.mk 7))._queue ++
          [("Agent1", buffer)]) :=
  ⟨by decide,
   (search_reply_to_self sampleExternals sampleExternals_roundTrip
      (fun (q : QueryModel Nat) (i : Instance Nat) => decide (q.handle = i.handle))
      { agentPublicKey_ := "Agent1" }
      (sampleScheduler.registerDescription "Agent2" (Instance.mk 7))
      { _agent := some 1, _description := none } 1 (by decide) rfl 3
      (QueryModel.mk 7)).1.imp (fun _ h => h.1)⟩

end OEFCoreLocalPB

namespace SchedulerPB

variable {QI QM Buffer : Type}

theorem dispatchFrame_of_no_session (x : Externals QI QM Buffer) (s : SchedulerPB QI Buffer)
    (p : String × Buffer) (h : s._agents.lookup p.1 = none) : dispatchFrame x s p = [] := by
  simp [dispatchFrame, h]

/-- C22: `disconnect(k)` removes exactly the session of `k`, keeps every other
session and leaves the dispatch queue unchanged; afterwards a queued frame addressed
to `k` invokes no callback when the worker dequeues it, so draining any queue gives
the callbacks of the frames for the other keys only. -/
theorem disconnect_removes_only_session (x : Externals QI QM Buffer)
    (s : SchedulerPB QI Buffer) (k : String) :
    (s.disconnect k)._agents.lookup k = none ∧
    (∀ j, j ≠ k → (s.disconnect k)._agents.lookup j = s._agents.lookup j) ∧
    (s.disconnect k)._queue = s._queue ∧
    (∀ buffer : Buffer, dispatchFrame x (s.disconnect k) (k, buffer) = []) ∧
    (∀ (buffer : Buffer) (rest : List (String × Buffer)),
      (s.disconnect k)._stopping = false → (s.disconnect k)._queue = (k, buffer) :: rest →
      processStep x (s.disconnect k) = some ({ s.disconnect k with _queue := rest }, [])) ∧
    (∀ queue : List (String × Buffer),
      drain x (s.disconnect k) queue =
        drain x (s.disconnect k) (queue.filter (fun p => decide (p.1 ≠ k)))) := by
  have hk : (s.disconnect k)._agents.lookup k = none := AList.lookup_erase k s._agents
  have hdrop : ∀ buffer : Buffer, dispatchFrame x (s.disconnect k) (k, buffer) = [] :=
    fun buffer => dispatchFrame_of_no_session x _ (k, buffer) hk
  refine ⟨hk, ?_, rfl, hdrop, ?_, ?_⟩
  · intro j hj
    exact AList.lookup_erase_ne hj
  · intro buffer rest hrun hq
    simp [processStep, hrun, hq, hdrop buffer]
  · intro queue
    induction queue with
    | nil => rfl
    | cons p rest ih =>
      obtain ⟨dest, buffer⟩ := p
      by_cases hd : dest = k
      · subst hd
        simp [drain, hdrop buffer, ih]
      · simp [drain, hd, ih]

/-- Witness for C22: a message for `Agent2` is queued in the sample scheduler, then
`Agent2` disconnects; the frame stays queued and the worker invokes nothing. -/
theorem disconnect_removes_only_session_witness :
    ((OEFCoreLocalPB.sendMessage sampleExternals { agentPublicKey_ := "Agent1" }
        sampleScheduler 1 1 "Agent2" "Hello world").disconnect "Agent2")._queue =
      (OEFCoreLocalPB.sendMessage sampleExternals { agentPublicKey_ := "Agent1" }
        sampleScheduler 1 1 "Agent2" "Hello world")._queue ∧
    dispatchFrame sampleExternals
        ((OEFCoreLocalPB.sendMessage sampleExternals { agentPublicKey_ := "Agent1" }
          sampleScheduler 1 1 "Agent2" "Hello world").disconnect "Agent2")
        ("Agent2", sampleExternals.serialize
          (OEFCoreLocalPB.contentMessage { agentPublicKey_ := "Agent1" } 1 1
            (.kContent "Hello world"))) = [] :=
  ⟨(disconnect_removes_only_session sampleExternals
      (OEFCoreLocalPB.sendMessage sampleExternals { agentPublicKey_ := "Agent1" }
        sampleScheduler 1 1 "Agent2" "Hello world") "Agent2").2.2.1,
   (disconnect_removes_only_session sampleExternals
      (OEFCoreLocalPB.sendMessage sampleExternals { agentPublicKey_ := "Agent1" }
        sampleScheduler 1 1 "Agent2" "Hello world") "Agent2").2.2.2.1 _⟩

/-- C23: a worker step that dequeues `(dest, bytes)` while not stopping decodes the
frame for the agent bound to `dest` when `dest` has a session with a bound agent, and
then every callback is invoked on that agent; a frame for an unknown key or for a
session that is not bound yet is dropped; in every case the step only pops the frame
and leaves the session table unchanged. -/
theorem processStep_decodes_iff_bound (x : Externals QI QM Buffer)
    (s : SchedulerPB QI Buffer) (dest : String) (bytes : Buffer)
    (rest : List (String × Buffer)) (hrun : s._stopping = false)
    (hq : s._queue = (dest, bytes) :: rest) :
    (∀ session a, s._agents.lookup dest = some session → session._agent = some a →
      processStep x s =
        some ({ s with _queue := rest }, MessageDecoder.decode x dest bytes a) ∧
      ∀ e ∈ MessageDecoder.decode x dest bytes a, e.1 = a) ∧
    (s._agents.lookup dest = none → processStep x s = some ({ s with _queue := rest }, [])) ∧
    (∀ session, s._agents.lookup dest = some session → session._agent = none →
      processStep x s = some ({ s with _queue := rest }, [])) ∧
    (∃ events, processStep x s = some ({ s with _queue := rest }, events)) ∧
    (∀ t events, processStep x s = some (t, events) → t._agents = s._agents) := by
  have hstep : processStep x s =
      some ({ s with _queue := rest }, dispatchFrame x s (dest, bytes)) := by
    simp [processStep, hrun, hq]
  refine ⟨?_, ?_, ?_, ⟨_, hstep⟩, ?_⟩
  · intro session a hl ha
    refine ⟨?_, MessageDecoder.decode_on_agent x dest bytes a⟩
    rw [hstep]
    simp [dispatchFrame, hl, ha]
  · intro hl
    rw [hstep]
    simp [dispatchFrame, hl]
  · intro session hl ha
    rw [hstep]
    simp [dispatchFrame, hl, ha]
  · intro t events ht
    rw [hstep] at ht
    have h1 : ({ s with _queue := rest } : SchedulerPB QI Buffer) = t :=
      congrArg Prod.fst (Option.some.inj ht)
    rw [← h1]

/-- Witness for C23: `Agent4` has connected to the sample scheduler but is not bound;
the frame queued for it is dropped by the worker step. -/
theorem processStep_decodes_iff_bound_witness :
    processStep sampleExternals
        ((sampleScheduler.connect "Agent4").2.send "Agent4"
          (some { answer_id := 1, payload := .kAgents [] })) =
      some ({ (sampleScheduler.connect "Agent4").2.send "Agent4"
                (some { answer_id := 1, payload := .kAgents [] }) with _queue := [] }, []) :=
  (processStep_decodes_iff_bound sampleExternals
      ((sampleScheduler.connect "Agent4").2.send "Agent4"
        (some { answer_id := 1, payload := .kAgents [] }))
      "Agent4" (some { answer_id := 1, payload := .kAgents [] }) [] rfl rfl).2.2.1
    { _agent := none, _description := none } (by decide) rfl

/-- C24: in every scheduler state with `_stopping` set, whatever the queue holds, the
worker performs no decode and invokes no callback: the loop takes no step, a worker
that was waiting in `pop` skips the frame it gets, and draining gives no callback and
leaves the queue as it is; the state after `stop()` is such a state, so the frames
still queued when `stop()` is called are never delivered. -/
theorem no_callback_when_stopping (x : Externals QI QM Buffer) (s : SchedulerPB QI Buffer) :
    (s._stopping = true →
      processStep x s = none ∧
      (∀ p, afterPop x s p = []) ∧
      process x s = (s, []) ∧
      (∀ fuel, processIter x fuel s = (s, []))) ∧
    (stop x s)._stopping = true ∧
    (stop x s)._queue = s._queue ++ [("", x.emptyBuffer)] ∧
    process x (stop x s) = (stop x s, []) := by
  have hgen : ∀ t : SchedulerPB QI Buffer, t._stopping = true →
      processStep x t = none ∧ (∀ p, afterPop x t p = []) ∧ process x t = (t, []) ∧
      (∀ fuel, processIter x fuel t = (t, [])) := by
    intro t ht
    have hstep : processStep x t = none := by simp [processStep, ht]
    refine ⟨hstep, fun p => by simp [afterPop, ht], by simp [process, ht], ?_⟩
    intro fuel
    cases fuel with
    | zero => rfl
    | succ n => simp [processIter, hstep]
  exact ⟨hgen s, rfl, rfl, (hgen (stop x s) rfl).2.2.1⟩

/-- Witness for C24: a message for `Agent2` is queued in the sample scheduler, then
`stop()` is called; the worker invokes nothing. -/
theorem no_callback_when_stopping_witness :
    (process sampleExternals
      (stop sampleExternals
        (OEFCoreLocalPB.sendMessage sampleExternals { agentPublicKey_ := "Agent1" }
          sampleScheduler 1 1 "Agent2" "Hello world"))).2 = [] :=
  congrArg Prod.snd
    ((no_callback_when_stopping sampleExternals
      (stop sampleExternals
        (OEFCoreLocalPB.sendMessage sampleExternals { agentPublicKey_ := "Agent1" }
          sampleScheduler 1 1 "Agent2" "Hello world"))).1 rfl).2.2.1

end SchedulerPB

/-! ### Callbacks that throw -/

namespace MessageDecoder

variable {QI QM Buffer : Type}

theorem runCallbacks_normal (run : AgentBehaviour QI QM) (events : List (Event QI QM))
    (h : ∀ e ∈ events, run e ≠ CallbackResult.throwsOther) :
    (runCallbacks run events).2 = Completion.normal := by
  induction events with
  | nil => rfl
  | cons e rest ih =>
    have he : run e ≠ CallbackResult.throwsOther := h e (List.mem_cons_self e rest)
    have hrest : ∀ e1 ∈ rest, run e1 ≠ CallbackResult.throwsOther :=
      fun e1 h1 => h e1 (List.mem_cons_of_mem e h1)
    unfold runCallbacks
    cases hr : run e with
    | returns => simpa using ih hrest
    | throwsStdException => rfl
    | throwsOther => exact absurd hr he

end MessageDecoder

namespace SchedulerPB

variable {QI QM Buffer : Type}

theorem dispatchFrameRun_eq (x : Externals QI QM Buffer) (run : AgentBehaviour QI QM)
    (s : SchedulerPB QI Buffer) (p : String × Buffer) :
    dispatchFrameRun x run s p = MessageDecoder.runCallbacks run (dispatchFrame x s p) := by
  unfold dispatchFrameRun dispatchFrame
  cases s._agents.lookup p.1 with
  | none => rfl
  | some session =>
    cases h : session._agent with
    | none => simp [h, MessageDecoder.runCallbacks]
    | some agent => simp [h, MessageDecoder.decodeRun]

/-- C25, refuted as stated: the callbacks of the sample agents throw something that is
not a `std::exception`; the handler of `decode` does not catch it, so `decode` does
not return normally, the exception ends the worker loop, and the second frame queued
for `Agent2` is never dispatched. -/
theorem callback_exception_escapes :
    (MessageDecoder.decodeRun sampleExternals sampleThrowingAgents "Agent2"
        (some { answer_id := 1
                payload := .kContent
                  { dialogue_id := 1, origin := "Agent1", payload := .kContent "one" } })
        2).2 = Completion.exceptional ∧
    drainRun sampleExternals sampleThrowingAgents sampleScheduler
        [("Agent2", some { answer_id := 1
                           payload := .kContent
                             { dialogue_id := 1, origin := "Agent1"
                               payload := .kContent "one" } }),
         ("Agent2", some { answer_id := 2
                           payload := .kContent
                             { dialogue_id := 1, origin := "Agent1"
                               payload := .kContent "two" } })] =
      ([(2, Callback.onMessage 1 1 "Agent1" "one")], Completion.exceptional) := by
  decide

/-- C25, amended: for every frame whose callback returns or raises an exception
derived from `std::exception`, `decode` returns normally to the worker, and the
worker goes on to dequeue and dispatch the following frames. -/
theorem std_exception_keeps_loop_running (x : Externals QI QM Buffer)
    (run : AgentBehaviour QI QM) (s : SchedulerPB QI Buffer) (p : String × Buffer)
    (rest : List (String × Buffer))
    (h : ∀ e ∈ dispatchFrame x s p, run e ≠ CallbackResult.throwsOther) :
    (∀ agent, (∀ e ∈ MessageDecoder.decode x p.1 p.2 agent,
        run e ≠ CallbackResult.throwsOther) →
      (MessageDecoder.decodeRun x run p.1 p.2 agent).2 = Completion.normal) ∧
    (dispatchFrameRun x run s p).2 = Completion.normal ∧
    drainRun x run s (p :: rest) =
      ((dispatchFrameRun x run s p).1 ++ (drainRun x run s rest).1,
        (drainRun x run s rest).2) := by
  have hnormal : (dispatchFrameRun x run s p).2 = Completion.normal := by
    rw [dispatchFrameRun_eq]
    exact MessageDecoder.runCallbacks_normal run _ h
  refine ⟨fun agent hagent => MessageDecoder.runCallbacks_normal run _ hagent, hnormal, ?_⟩
  show (match (dispatchFrameRun x run s p).2 with
    | .normal =>
      ((dispatchFrameRun x run s p).1 ++ (drainRun x run s rest).1, (drainRun x run s rest).2)
    | .exceptional => ((dispatchFrameRun x run s p).1, .exceptional)) = _
  rw [hnormal]

/-- Witness for the amended C25: the callbacks throw a `std::exception`; both frames
queued for `Agent2` in the sample scheduler are dispatched. -/
theorem std_exception_keeps_loop_running_witness :
    drainRun sampleExternals (fun _ => CallbackResult.throwsStdException) sampleScheduler
        [("Agent2", some { answer_id := 1
                           payload := .kContent
                             { dialogue_id := 1, origin := "Agent1"
                               payload := .kContent "one" } }),
         ("Agent2", some { answer_id := 2
                           payload := .kContent
                             { dialogue_id := 1, origin := "Agent1"
                               payload := .kContent "two" } })] =
      ([(2, Callback.onMessage 1 1 "Agent1" "one"), (2, Callback.onMessage 2 1 "Agent1" "two")],
        Completion.normal) :=
  ((std_exception_keeps_loop_running sampleExternals
      (fun _ => CallbackResult.throwsStdException) sampleScheduler
      ("Agent2", some { answer_id := 1
                        payload := .kContent
                          { dialogue_id := 1, origin := "Agent1"
                            payload := .kContent "one" } })
      [("Agent2", some { answer_id := 2
                         payload := .kContent
                           { dialogue_id := 1, origin := "Agent1"
                             payload := .kContent "two" } })]
      (fun _ _ h => CallbackResult.noConfusion h)).2.2).trans (by decide)

end SchedulerPB

/-! ### The network handshake -/

namespace OEFCoreNetworkProxy

/-- The handshake returns false when one of the first three steps reports an error. -/
theorem handshake_false_of_early_error (self : OEFCoreNetworkProxy) (io : HandshakeIO)
    (h : io.writeIdError = true ∨ io.readPhraseError = true ∨ io.writeAnswerError = true) :
    (self.handshake io).1 = false := by
  unfold handshake
  by_cases h1 : io.writeIdError = true
  · simp [h1]
  by_cases h2 : io.readPhraseError = true
  · simp [h1, h2]
  by_cases hf : io.phrase.has_failure = true
  · simp [h1, h2, hf]
  have h3 : io.writeAnswerError = true := by
    rcases h with h | h | h
    · exact absurd h h1
    · exact absurd h h2
    · exact h
  simp [h1, h2, hf, h3]

/-- C26, the code at the failing input: the first three steps succeed and the last
read reports an I/O error with a buffer that deserialises to `status = true`; the
handler does not test the error code and `handshake()` returns true. -/
theorem handshake_ignores_last_read_error :
    sampleLastReadError.readConnectedError = true ∧
    (handshake { agentPublicKey_ := "Agent1" } sampleLastReadError).1 = true := by
  decide

/-- C27: when all four steps succeed and the `Server_Phrase` does not signal failure,
the messages written are the `Agent_Server_ID` of the key and then the
`Agent_Server_Answer` carrying the reversal of the received phrase (reversing the
answer gives the phrase back), and `handshake()` returns the status of the received
`Server_Connected`: true exactly when the status is true. -/
theorem handshake_answer_and_status (self : OEFCoreNetworkProxy) (io : HandshakeIO)
    (h1 : io.writeIdError = false) (h2 : io.readPhraseError = false)
    (hf : io.phrase.has_failure = false) (h3 : io.writeAnswerError = false)
    (_h4 : io.readConnectedError = false) :
    self.handshake io =
      (io.connected.status,
        [HandshakeWrite.Agent_Server_ID self.agentPublicKey_,
         HandshakeWrite.Agent_Server_Answer (String.mk io.phrase.phrase.data.reverse)]) ∧
    String.mk (String.mk io.phrase.phrase.data.reverse).data.reverse = io.phrase.phrase ∧
    ((self.handshake io).1 = true ↔ io.connected.status = true) := by
  have hval : self.handshake io =
      (io.connected.status,
        [HandshakeWrite.Agent_Server_ID self.agentPublicKey_,
         HandshakeWrite.Agent_Server_Answer (String.mk io.phrase.phrase.data.reverse)]) := by
    simp [handshake, h1, h2, hf, h3]
  refine ⟨hval, ?_, by rw [hval]⟩
  simp

/-- Witness for C27: the phrase `abc` is answered with `cba` and the accepted
handshake returns true. -/
theorem handshake_answer_and_status_witness :
    handshake { agentPublicKey_ := "Agent1" } sampleHandshakeOk =
      (true, [HandshakeWrite.Agent_Server_ID "Agent1",
              HandshakeWrite.Agent_Server_Answer "cba"]) :=
  (handshake_answer_and_status { agentPublicKey_ := "Agent1" } sampleHandshakeOk
    rfl rfl rfl rfl rfl).1

/-- C28: after the id was written and the `Server_Phrase` was read without error, the
handshake fails without writing an `Agent_Server_Answer` exactly when the phrase
signals failure; a phrase that does not signal failure is answered. -/
theorem handshake_fails_on_phrase_failure (self : OEFCoreNetworkProxy) (io : HandshakeIO)
    (h1 : io.writeIdError = false) (h2 : io.readPhraseError = false) :
    (((self.handshake io).1 = false ∧
        ∀ answer, HandshakeWrite.Agent_Server_Answer answer ∉ (self.handshake io).2) ↔
      io.phrase.has_failure = true) ∧
    (io.phrase.has_failure = true →
      self.handshake io = (false, [HandshakeWrite.Agent_Server_ID self.agentPublicKey_])) ∧
    (io.phrase.has_failure = false →
      HandshakeWrite.Agent_Server_Answer (String.mk io.phrase.phrase.data.reverse) ∈
        (self.handshake io).2) := by
  have hfail : io.phrase.has_failure = true →
      self.handshake io = (false, [HandshakeWrite.Agent_Server_ID self.agentPublicKey_]) := by
    intro hf
    simp [handshake, h1, h2, hf]
  have hok : io.phrase.has_failure = false →
      HandshakeWrite.Agent_Server_Answer (String.mk io.phrase.phrase.data.reverse) ∈
        (self.handshake io).2 := by
    intro hf
    by_cases h3 : io.writeAnswerError = true <;> simp [handshake, h1, h2, hf, h3]
  refine ⟨⟨?_, ?_⟩, hfail, hok⟩
  · rintro ⟨_, hno⟩
    by_contra hf
    exact hno _ (hok (by simpa using hf))
  · intro hf
    rw [hfail hf]
    exact ⟨rfl, by simp⟩

/-- Witness for C28: a phrase that signals failure ends the handshake of `Agent1`
after the id, with the result false. -/
theorem handshake_fails_on_phrase_failure_witness :
    handshake { agentPublicKey_ := "Agent1" }
        { sampleHandshakeOk with phrase := { phrase := "", has_failure := true } } =
      (false, [HandshakeWrite.Agent_Server_ID "Agent1"]) :=
  (handshake_fails_on_phrase_failure { agentPublicKey_ := "Agent1" }
    { sampleHandshakeOk with phrase := { phrase := "", has_failure := true } } rfl rfl).2.1 rfl

end OEFCoreNetworkProxy

/-! ### The registry invariant and the set of session keys -/

namespace Dialogues

variable {T : Type}

theorem sampleDialogues_wellFormed : sampleDialogues.WellFormed := by
  intro k handle h
  by_cases hk : k = 5
  · subst hk
    have h5 : sampleDialogues._dialogues.lookup 5 =
        some (some { _uuid := 5, _dest := "Agent2", _msgId := 3, _state := 0 }) := by decide
    rw [h5] at h
    exact ⟨_, (Option.some.inj h).symm, rfl⟩
  · have hnone : sampleDialogues._dialogues.lookup k = none := by
      unfold sampleDialogues
      rw [AList.lookup_insert_ne hk]
      exact AList.lookup_empty k
    rw [hnone] at h
    exact Option.noConfusion h

/-- The invariant is kept by every member except `get(id)` on an id without entry:
by `create`, by `get(id, dest)`, by `erase`, and by `get(id)` on an id that has an
entry. -/
theorem wellFormed_kept_elsewhere [Inhabited T] (r : Dialogues T) (h : r.WellFormed) :
    (∀ u dest, (r.create u dest).2.WellFormed) ∧
    (∀ id dest, (r.get2 id dest).2.WellFormed) ∧
    (∀ id, (r.erase id).WellFormed) ∧
    (∀ id, id ∈ r._dialogues → (r.get1 id).2.WellFormed) := by
  have hins : ∀ (u : Nat) (dest : String),
      ({ _dialogues := r._dialogues.insert u
          (some { _uuid := u, _dest := dest, _msgId := 0, _state := default }) } :
        Dialogues T).WellFormed := by
    intro u dest k handle hl
    by_cases hk : k = u
    · subst hk
      have hl1 : (r._dialogues.insert k
          (some { _uuid := k, _dest := dest, _msgId := 0, _state := default })).lookup k =
          some handle := hl
      rw [AList.lookup_insert] at hl1
      exact ⟨_, (Option.some.inj hl1).symm, rfl⟩
    · have hl1 : (r._dialogues.insert u
          (some { _uuid := u, _dest := dest, _msgId := 0, _state := default })).lookup k =
          some handle := hl
      rw [AList.lookup_insert_ne hk] at hl1
      exact h k handle hl1
  refine ⟨fun u dest => hins u dest, ?_, ?_, ?_⟩
  · intro id dest
    unfold get2
    cases hl : r._dialogues.lookup id with
    | none => exact hins id dest
    | some handle =>
      cases handle with
      | none => exact h
      | some dialogue => exact h
  · intro id k handle hl
    have hl1 : (r._dialogues.erase id).lookup k = some handle := hl
    by_cases hk : k = id
    · subst hk
      rw [AList.lookup_erase] at hl1
      exact Option.noConfusion hl1
    · rw [AList.lookup_erase_ne hk] at hl1
      exact h k handle hl1
  · intro id hid
    unfold get1
    cases hl : r._dialogues.lookup id with
    | none => exact absurd hid (AList.lookup_eq_none.mp hl)
    | some handle =>
      cases handle with
      | none => exact h
      | some dialogue => exact h

/-- C29, the code at the failing input: the sample registry satisfies the invariant
and has no entry for 7; `get(7)` leaves a registry that violates it, because
`_dialogues[7]` has inserted a null handle, and a later `get(7, "peer")` finds that
entry and dereferences the null handle. -/
theorem get1_absent_breaks_invariant :
    sampleDialogues.WellFormed ∧
    7 ∉ sampleDialogues._dialogues ∧
    ¬ (sampleDialogues.get1 7).2.WellFormed ∧
    ((sampleDialogues.get1 7).2.get2 7 "peer").1 = .error Fault.nullDereference := by
  refine ⟨sampleDialogues_wellFormed, by decide, ?_, rfl⟩
  intro hwf
  have hl : (sampleDialogues.get1 7).2._dialogues.lookup 7 = some none := by decide
  obtain ⟨d, hd, _⟩ := hwf 7 none hl
  exact Option.noConfusion hd

end Dialogues

namespace SchedulerPB

variable {QI QM Buffer : Type}

/-- Every member other than `connect`, `disconnect` and `loop` keeps the list of
session keys, for every key argument; `loop` keeps it for a key that has a session.
The searches are const members. -/
theorem keys_kept_elsewhere [DecidableEq QI] (x : Externals QI QM Buffer)
    (s : SchedulerPB QI Buffer) (k : String) :
    (∀ inst, (s.registerDescription k inst)._agents.keys = s._agents.keys) ∧
    (s.unregisterDescription k)._agents.keys = s._agents.keys ∧
    (∀ inst, (s.registerService k inst)._agents = s._agents) ∧
    (∀ inst, (s.unregisterService k inst)._agents = s._agents) ∧
    (∀ buffer, (s.send k buffer)._agents = s._agents) ∧
    (∀ dest buffer, (s.sendTo k dest buffer)._agents = s._agents) ∧
    (∀ t events, processStep x s = some (t, events) → t._agents = s._agents) ∧
    (∀ agent, k ∈ s._agents → (s.loop k agent)._agents.keys = s._agents.keys) := by
  refine ⟨?_, ?_, fun _ => rfl, fun _ => rfl, fun _ => rfl, ?_, ?_, ?_⟩
  · intro inst
    unfold registerDescription
    cases hl : s._agents.lookup k with
    | none => rfl
    | some session => exact AList.keys_replace _ _ _
  · unfold unregisterDescription
    cases hl : s._agents.lookup k with
    | none => rfl
    | some session => exact AList.keys_replace _ _ _
  · intro dest buffer
    unfold sendTo
    cases hl : s._agents.lookup dest with
    | none => rfl
    | some session => rfl
  · intro t events ht
    unfold processStep at ht
    cases hst : s._stopping with
    | true => simp [hst] at ht
    | false =>
      cases hq : s._queue with
      | nil => simp [hst, hq] at ht
      | cons p rest =>
        simp [hst, hq] at ht
        rw [← ht.1]
  · intro agent hk
    obtain ⟨session, hs⟩ := exists_lookup_of_mem s k hk
    unfold loop
    rw [hs]
    exact AList.keys_replace _ _ _

/-- C30, the code at the failing input: `Ghost` has no session in the sample
scheduler; `loop("Ghost", agent)` creates one through `_agents["Ghost"]`, without
`connect`, and `nbAgents()` goes from 3 to 4. -/
theorem loop_creates_session :
    "Ghost" ∉ sampleScheduler._agents ∧
    sampleScheduler.nbAgents = 3 ∧
    "Ghost" ∈ (sampleScheduler.loop "Ghost" 9)._agents ∧
    (sampleScheduler.loop "Ghost" 9).nbAgents = 4 := by
  decide

end SchedulerPB

/-! ### A refused proxy, and services after disconnect -/

namespace OEFCoreLocalPB

variable {QI QM Buffer : Type}

/-- A second proxy for a connected key is refused by `handshake()`, which leaves the
scheduler as it is; its `stop()` (and its destructor) then erases the session of the
key, so that `nbAgents()` drops by 1. -/
theorem stop_after_refused_handshake (s : SchedulerPB QI Buffer) (k : String)
    (h : k ∈ s._agents) :
    handshake { agentPublicKey_ := k } s = (false, s) ∧
    k ∉ (stop { agentPublicKey_ := k } (handshake { agentPublicKey_ := k } s).2)._agents ∧
    (stop { agentPublicKey_ := k } (handshake { agentPublicKey_ := k } s).2).nbAgents + 1 =
      s.nbAgents := by
  have hhs : handshake { agentPublicKey_ := k } s = (false, s) := SchedulerPB.connect_of_mem s k h
  rw [hhs]
  refine ⟨rfl, ?_, ?_⟩
  · show k ∉ s._agents.erase k
    simp
  · show (s._agents.erase k).entries.length + 1 = s._agents.entries.length
    have hlen : (s._agents.erase k).keys.length + 1 = s._agents.keys.length := by
      rw [AList.keys_erase, List.length_erase_of_mem (AList.mem_keys.mp h)]
      have hpos : 0 < s._agents.keys.length := List.length_pos_of_mem (AList.mem_keys.mp h)
      omega
    simpa [AList.keys, List.keys] using hlen

/-- C31, the code at the failing input: `Agent2` is connected and bound in the sample
scheduler; a second proxy with the key `Agent2` is refused by `handshake()`, which
changes nothing, and its `stop()` (the destructor does the same) removes the session
of `Agent2`: the key is gone and `nbAgents()` goes from 3 to 2. -/
theorem refused_proxy_removes_session :
    "Agent2" ∈ sampleScheduler._agents ∧
    sampleScheduler.nbAgents = 3 ∧
    (handshake { agentPublicKey_ := "Agent2" } sampleScheduler).1 = false ∧
    "Agent2" ∉ (stop { agentPublicKey_ := "Agent2" }
        (handshake { agentPublicKey_ := "Agent2" } sampleScheduler).2)._agents ∧
    (stop { agentPublicKey_ := "Agent2" }
        (handshake { agentPublicKey_ := "Agent2" } sampleScheduler).2).nbAgents = 2 := by
  decide

end OEFCoreLocalPB

namespace SchedulerPB

variable {QI QM Buffer : Type}

/-- C32: `disconnect(k)` does not touch the service directory: `searchServices(model)`
returns the same list before and after `disconnect(k)`, for every state, key and
model, so a service registered by `k` under an instance the model accepts is still
found after the session of `k` is gone. -/
theorem disconnect_keeps_services [DecidableEq QI]
    (check : QueryModel QM → Instance QI → Bool) (s : SchedulerPB QI Buffer) (k : String)
    (id : Nat) (model : QueryModel QM) :
    (s.disconnect k)._sd = s._sd ∧
    (s.disconnect k).searchServices check id model = s.searchServices check id model ∧
    (∀ inst : Instance QI, check model inst = true →
      k ∈ ((s.registerService k inst).disconnect k).searchServices check id model ∧
      k ∉ ((s.registerService k inst).disconnect k)._agents) := by
  refine ⟨rfl, rfl, ?_⟩
  intro inst hc
  refine ⟨?_, ?_⟩
  · show k ∈ (s.registerService k inst).searchServices check id model
    exact (mem_searchServices_registerService check s k inst id model k).mpr (Or.inr ⟨hc, rfl⟩)
  · show k ∉ (s.registerService k inst)._agents.erase k
    simp

/-- Witness for C32: `Agent1` registers the service 1 in the sample scheduler and
disconnects; the query for 1 still returns `Agent1`, which has no session any more. -/
theorem disconnect_keeps_services_witness :
    "Agent1" ∈ ((sampleScheduler.registerService "Agent1" (Instance.mk 1)).disconnect
        "Agent1").searchServices
        (fun (q : QueryModel Nat) (i : Instance Nat) => decide (q.handle = i.handle)) 1
        (QueryModel.mk 1) ∧
    "Agent1" ∉ ((sampleScheduler.registerService "Agent1" (Instance.mk 1)).disconnect
        "Agent1")._agents :=
  (disconnect_keeps_services
      (fun (q : QueryModel Nat) (i : Instance Nat) => decide (q.handle = i.handle))
      sampleScheduler "Agent1" 1 (QueryModel.mk 1)).2.2 (Instance.mk 1) (by decide)

end SchedulerPB

end fetch.oef
